import Mathlib

/-!
Verification development for the `glass_onion` entity-resolution library
(`src/glass_onion/engine.py`, `match.py`, `player.py`, `team.py`, `utils.py`).

The pandas tables of the source are embedded shallowly:

* a cell is `Option Val` (`none` models `NaN`/`pd.NA`);
* a row is an association list from column name to cell (a missing binding
  reads as a null cell, matching the null fill that pandas applies when
  frames with different column sets are concatenated);
* a dataframe carries its ordered column list and its ordered row list.

pandas semantics that the source relies on and that the embedding encodes:

* `DataFrame.merge(..., how="left"/"inner", on=keys)` matches key tuples by
  equality in which null equals null, fans out on duplicate right keys, and
  suffixes overlapping non-key column names with `_x`/`_y`;
* `DataFrame.groupby(keys)` uses its default `dropna=True`: any row with a
  null in one of the grouping columns belongs to no group and is dropped;
* `Series.isin` treats null as a matchable value;
* column order is tracked but no theorem below depends on it; group order is
  modelled as first-occurrence order (pandas sorts group keys, which only
  permutes output rows).
-/

namespace GlassOnion

/-- A scalar value stored in a table cell: the source's fixtures and tests use
strings and integers. -/
inductive Val where
  | str (s : String)
  | int (n : Int)
deriving DecidableEq, Repr

/-- A cell: `none` models a pandas null (`NaN`/`pd.NA`). -/
abbrev Cell := Option Val

/-- A row: association list from column name to cell. -/
abbrev Row := List (String × Cell)

/-- Read a cell from a row; a missing binding reads as null, the way pandas
fills absent columns with `NaN` after an outer concatenation. -/
def Row.getCell (r : Row) (c : String) : Cell :=
  match r.lookup c with
  | some v => v
  | none => none

/-- Overwrite (or append) a binding, keeping the first occurrence's position. -/
def Row.setCell (r : Row) (c : String) (v : Cell) : Row :=
  if (r.lookup c).isSome then
    r.map (fun p => if p.1 = c then (c, v) else p)
  else
    r ++ [(c, v)]

/-- A dataframe: ordered column names and ordered rows. -/
structure DF where
  cols : List String
  rows : List Row
deriving DecidableEq, Repr

/-- The empty dataframe `pd.DataFrame()`. -/
def emptyDF : DF := { cols := [], rows := [] }

/-- `len(df)`. -/
def DF.length (df : DF) : Nat := df.rows.length

/-- `df[c]` as a list of cells. -/
def DF.getColumn (df : DF) (c : String) : List Cell :=
  df.rows.map (fun r => r.getCell c)

/-- The tuple of cells a row exhibits on a list of key columns. -/
def rowKey (keys : List String) (r : Row) : List Cell :=
  keys.map (fun c => r.getCell c)

/-- `df.dropna(subset=subset)`: keep rows that are non-null in every listed
column. -/
def DF.dropnaSubset (df : DF) (subset : List String) : DF :=
  { df with rows := df.rows.filter (fun r => subset.all (fun c => (r.getCell c).isSome)) }

/-- `df[df[c].isin(vals)]`. -/
def DF.filterIsin (df : DF) (c : String) (vals : List Cell) : DF :=
  { df with rows := df.rows.filter (fun r => decide (r.getCell c ∈ vals)) }

/-- `df[~df[c].isin(vals)]`. -/
def DF.filterNotIsin (df : DF) (c : String) (vals : List Cell) : DF :=
  { df with rows := df.rows.filter (fun r => decide (r.getCell c ∉ vals)) }

/-- `df[cs]`: project onto the listed columns (which the source only applies
when they exist). -/
def DF.project (df : DF) (cs : List String) : DF :=
  { cols := cs, rows := df.rows.map (fun r => cs.map (fun c => (c, r.getCell c))) }

/-- `df[c] = v` with a constant value: set every row's cell, appending the
column at the end when it is new, as pandas does. -/
def DF.setColumnConst (df : DF) (c : String) (v : Cell) : DF :=
  { cols := if c ∈ df.cols then df.cols else df.cols ++ [c],
    rows := df.rows.map (fun r => r.setCell c v) }

/-- `df[c] = df[c].map f`: rewrite one column in place. -/
def DF.mapColumn (df : DF) (c : String) (f : Cell → Cell) : DF :=
  { df with rows := df.rows.map (fun r => r.setCell c (f (r.getCell c))) }

/-- `df.rename({a: b}, axis=1)`. -/
def DF.renameColumn (df : DF) (a b : String) : DF :=
  { cols := df.cols.map (fun c => if c = a then b else c),
    rows := df.rows.map (fun r => r.map (fun p => if p.1 = a then (b, p.2) else p)) }

/-- `df.drop([c], axis=1)`. -/
def DF.dropColumn (df : DF) (c : String) : DF :=
  { cols := df.cols.filter (fun x => decide (x ≠ c)),
    rows := df.rows.map (fun r => r.filter (fun p => decide (p.1 ≠ c))) }

/-- `pd.concat([l, r], axis=0)`: rows appended, columns unioned (cells of
columns absent on one side read as null through `Row.getCell`). -/
def DF.concat (l r : DF) : DF :=
  { cols := l.cols ++ r.cols.filter (fun c => decide (c ∉ l.cols)),
    rows := l.rows ++ r.rows }

/-- Membership of a key tuple among a frame's rows, used for merge matching
(null keys match null keys, as in pandas merges). -/
def matchingRows (rows : List Row) (keys : List String) (t : List Cell) : List Row :=
  rows.filter (fun r => decide (rowKey keys r = t))

/-- Suffix-rename for the left side of a merge: overlapping non-key names get
`_x`. -/
def renameOverlap (overlap : List String) (sfx : String) (r : Row) : Row :=
  r.map (fun p => if p.1 ∈ overlap then (p.1 ++ sfx, p.2) else p)

/-- The column-name overlap of a merge: non-key columns present on both
sides; pandas renames them with `_x`/`_y` suffixes. -/
def mergeOverlap (l r : DF) (keys : List String) : List String :=
  l.cols.filter (fun c => decide (c ∉ keys) && decide (c ∈ r.cols))

/-- The right side's output column names in a merge: non-key columns,
suffixed `_y` when overlapping. -/
def mergeRCols (l r : DF) (keys : List String) : List String :=
  (r.cols.filter (fun c => decide (c ∉ keys))).map
    (fun c => if c ∈ mergeOverlap l r keys then c ++ "_y" else c)

/-- The output rows one left row contributes to a left merge: one row per
matching right row, or a single null-filled row when nothing matches. -/
def leftMergeRows (overlap rcols keys : List String) (rRows : List Row)
    (lr : Row) : List Row :=
  match matchingRows rRows keys (rowKey keys lr) with
  | [] => [renameOverlap overlap "_x" lr ++ rcols.map (fun c => (c, (none : Cell)))]
  | ms => ms.map (fun rr =>
      renameOverlap overlap "_x" lr ++
        renameOverlap overlap "_y" (rr.filter (fun p => decide (p.1 ∉ keys))))

/-- `pd.merge(l, r, on=keys, how="left")`:
for each left row, emit one output row per matching right row (key tuples
compared with null matching null), or a single null-filled row when nothing
matches; overlapping non-key column names are suffixed `_x`/`_y`. -/
def DF.leftMerge (l r : DF) (keys : List String) : DF :=
  { cols := l.cols.map (fun c => if c ∈ mergeOverlap l r keys then c ++ "_x" else c)
      ++ mergeRCols l r keys,
    rows := l.rows.flatMap
      (leftMergeRows (mergeOverlap l r keys) (mergeRCols l r keys) keys r.rows) }

/-- `pd.merge(l, r, on=keys, how="inner")`: like the left merge but rows
without a match are dropped. -/
def DF.innerMerge (l r : DF) (keys : List String) : DF :=
  { cols := l.cols.map (fun c => if c ∈ mergeOverlap l r keys then c ++ "_x" else c)
      ++ mergeRCols l r keys,
    rows := l.rows.flatMap (fun lr =>
      (matchingRows r.rows keys (rowKey keys lr)).map (fun rr =>
        renameOverlap (mergeOverlap l r keys) "_x" lr ++
          renameOverlap (mergeOverlap l r keys) "_y"
            (rr.filter (fun p => decide (p.1 ∉ keys))))) }

/-- Helper for `distinctKeys`: keep the elements not seen before. -/
def distinctKeysAux (seen : List (List Cell)) : List (List Cell) → List (List Cell)
  | [] => []
  | t :: rest =>
      if t ∈ seen then distinctKeysAux seen rest
      else t :: distinctKeysAux (t :: seen) rest

/-- The distinct elements of a list in first-occurrence order (the group keys
of a `groupby`; pandas additionally sorts them, which only permutes output
rows and no theorem below depends on row order). -/
def distinctKeys (l : List (List Cell)) : List (List Cell) :=
  distinctKeysAux [] l

/-- First non-null value of a list of cells, or null:
`x[x.notna()].iloc[0] if len(x[x.notna()]) > 0 else pd.NA`. -/
def firstNonNull (cells : List Cell) : Cell :=
  cells.findSome? id

/-- Embedding of the final dedup step of `SyncEngine.synchronize`
(engine.py lines 608-615):

    synced.data.groupby(self.join_columns).agg(dedupe_aggregation).reset_index()

with `dedupe_aggregation` picking, for every identifier column in `aggCols`,
the first non-null value of the group. `groupby` keeps its pandas default
`dropna=True`, so rows with a null in any grouping column are dropped. After
`reset_index` the output carries the grouping columns followed by the
aggregated identifier columns. `validRows` is the set of rows `groupby`
actually groups (those fully non-null on the grouping columns). -/
def validRows (df : DF) (keys : List String) : List Row :=
  df.rows.filter (fun r => keys.all (fun c => (r.getCell c).isSome))

/-- One output row of the dedup `groupby`: the group keys followed by the
first non-null value of every aggregated identifier column within the
group. -/
def groupAggRow (valid : List Row) (keys aggCols : List String) (t : List Cell) : Row :=
  keys.zip t ++ aggCols.map (fun c =>
    (c, firstNonNull ((matchingRows valid keys t).map (fun r => r.getCell c))))

def dedupeAgg (df : DF) (keys : List String) (aggCols : List String) : DF :=
  let valid := validRows df keys
  { cols := keys ++ aggCols,
    rows := (distinctKeys (valid.map (rowKey keys))).map (groupAggRow valid keys aggCols) }

/-- Embedding of `glass_onion.utils.dataframe_coalesce` on a single row for
one column name `o` (utils.py lines 39-46): where `{o}_x` is null, it takes
the value of `{o}_y`; `{o}_x` is then renamed to `o` and `{o}_y` dropped.
The renamed binding is appended at the end of the row; `Row.getCell` is
position-insensitive so this order choice is observationally irrelevant
(the ambient frames never carry a plain `o` column next to `{o}_x`/`{o}_y`,
which pandas' suffixing rules exclude). -/
def rowCoalesce (o : String) (r : Row) : Row :=
  let x := r.getCell (o ++ "_x")
  let y := r.getCell (o ++ "_y")
  let v := if x.isSome then x else y
  (r.filter (fun p => decide (p.1 ≠ o ++ "_x") && decide (p.1 ≠ o ++ "_y") &&
    decide (p.1 ≠ o))) ++ [(o, v)]

/-- Embedding of `glass_onion.utils.dataframe_coalesce` for one column name:
a no-op unless both suffixed columns are present. -/
def coalesceOne (df : DF) (o : String) : DF :=
  if (o ++ "_x") ∈ df.cols ∧ (o ++ "_y") ∈ df.cols then
    { cols := (df.cols.map (fun c => if c = o ++ "_x" then o else c)).filter
        (fun c => decide (c ≠ o ++ "_y")),
      rows := df.rows.map (rowCoalesce o) }
  else df

/-- `glass_onion.utils.dataframe_coalesce` (utils.py lines 12-49). -/
def dataframe_coalesce (df : DF) (columns : List String) : DF :=
  columns.foldl coalesceOne df

/-- One row of `glass_onion.utils.dataframe_clean_merged_fields`
(utils.py lines 79-82): keep `{o}_x` under the name `o`, drop `{o}_y`. -/
def rowCleanMerged (o : String) (r : Row) : Row :=
  let v := r.getCell (o ++ "_x")
  (r.filter (fun p => decide (p.1 ≠ o ++ "_x") && decide (p.1 ≠ o ++ "_y") &&
    decide (p.1 ≠ o))) ++ [(o, v)]

/-- `glass_onion.utils.dataframe_clean_merged_fields` for one column name. -/
def cleanMergedOne (df : DF) (o : String) : DF :=
  if (o ++ "_x") ∈ df.cols ∧ (o ++ "_y") ∈ df.cols then
    { cols := (df.cols.map (fun c => if c = o ++ "_x" then o else c)).filter
        (fun c => decide (c ≠ o ++ "_y")),
      rows := df.rows.map (rowCleanMerged o) }
  else df

/-- `glass_onion.utils.dataframe_clean_merged_fields` (utils.py lines 52-84). -/
def dataframe_clean_merged_fields (df : DF) (columns : List String) : DF :=
  columns.foldl cleanMergedOne df

/-- Does the character list `s` start with `pat`? -/
def charsStartWith : List Char → List Char → Bool
  | _, [] => true
  | [], _ :: _ => false
  | a :: as, b :: bs => a == b && charsStartWith as bs

/-- Does the character list `s` contain `pat` as a contiguous sublist? -/
def charsContain : List Char → List Char → Bool
  | [], pat => charsStartWith [] pat
  | a :: as, pat => charsStartWith (a :: as) pat || charsContain as pat

/-- Substring containment, for the `columns.str.contains` mask of
`SyncableContent.merge`. -/
def strContains (s pat : String) : Bool :=
  charsContain s.data pat.data

/-- `glass_onion.engine.SyncableContent`: the wrapper around one provider's
table. `id_field` is derived as in the source. -/
structure SC where
  objectType : String
  provider : String
  data : DF
deriving DecidableEq, Repr

/-- `f"{provider}_{object_type}_id"` (engine.py line 20). -/
def SC.idField (c : SC) : String := c.provider ++ "_" ++ c.objectType ++ "_id"

/-- `SyncableContent.__init__` (engine.py lines 17-26): fails (AssertionError)
unless the derived `id_field` is one of the data columns. (`data is not None`
always holds in the embedding.) -/
def mkSC (objectType provider : String) (data : DF) : Except String SC :=
  let c : SC := { objectType := objectType, provider := provider, data := data }
  if c.idField ∈ data.cols then .ok c
  else .error ("Field `" ++ c.idField ++ "` must be available as a column in `data`")

/-- `SyncableContent.merge` (engine.py lines 28-63): type check, key-presence
check, projection of the right frame onto its `_{object_type}_id` columns,
then a left join on the right wrapper's `id_field`. (The `right is None`
short-circuit is omitted: the engine always passes a wrapper.) -/
def SC.merge (l r : SC) : Except String SC :=
  if l.objectType ≠ r.objectType then
    .error "Left `object_type` does not match Right `object_type`."
  else if r.idField ∉ l.data.cols then
    .error "Right `id_field` not in Left `data` columns."
  else
    let idMask := r.data.cols.filter (fun c => strContains c ("_" ++ l.objectType ++ "_id"))
    let merged := l.data.leftMerge (r.data.project idMask) [r.idField]
    .ok { objectType := l.objectType, provider := l.provider, data := merged }

/-- `SyncableContent.append` with a dataframe argument (engine.py lines 65-99):
in-place row concatenation; the returned wrapper is the mutated `self`. -/
def SC.appendDF (l : SC) (r : DF) : SC :=
  { l with data := l.data.concat r }

/-- `SyncEngine.synchronize_pair` of the base class (engine.py lines 459-487).
The two empty-side branches mutate the non-empty argument in place: the source
adds an all-null column named after the empty side's `id_field` to the
non-empty wrapper's own `data` and returns that same wrapper. The embedding
makes the mutation explicit by returning the post-states of both arguments
together with the returned wrapper: `.ok (post1, post2, returned)`. With both
sides non-empty the base class raises `NotImplementedError`.

match.py lines 192-198, team.py lines 122-128 and player.py lines 340-346
repeat these two branches verbatim at the top of their overrides, so this
definition is also the exact embedding of the empty-side behavior of every
entity-specific override. -/
def baseSynchronizePair (i1 i2 : SC) : Except String (SC × SC × SC) :=
  if i1.data.rows.length = 0 ∧ i2.data.rows.length > 0 then
    let i2' := { i2 with data := i2.data.setColumnConst i1.idField none }
    .ok (i1, i2', i2')
  else if i1.data.rows.length > 0 ∧ i2.data.rows.length = 0 then
    let i1' := { i1 with data := i1.data.setColumnConst i2.idField none }
    .ok (i1', i2, i1')
  else
    .error "NotImplementedError"

/-- The Pass-1/Pass-2 agglomeration loop of `SyncEngine.synchronize`
(engine.py lines 520-525 and 557-562):

    for i in range(0, len(content) - 1):
        z = self.synchronize_pair(content[i], content[i + 1])
        results.append(z)

`synchronize_pair` can mutate its arguments (its empty-side branches do), so
the loop threads the updated content list: after each call the two elements
just passed are replaced by their post-states. `steps` counts the remaining
iterations (`len(content) - 1` at the top call). -/
def pairLoop (syncPair : SC → SC → Except String (SC × SC × SC)) :
    List SC → List SC → Nat → Nat → Except String (List SC × List SC)
  | content, results, _, 0 => .ok (content, results)
  | content, results, i, steps + 1 =>
    match content[i]?, content[i + 1]? with
    | some x, some y => do
        let (x', y', z) ← syncPair x y
        pairLoop syncPair ((content.set i x').set (i + 1) y') (results ++ [z])
          (i + 1) steps
    | _, _ => .error "IndexError"

/-- `reduce(lambda x, y: x.merge(y), results[1:], results[0])`
(engine.py line 527). -/
def mergeReduce (first : SC) (rest : List SC) : Except String SC :=
  rest.foldlM SC.merge first

/-- Pass 2's remainder collection (engine.py lines 541-551): for every
content element, the rows whose identifier is absent from the synced basis,
wrapped (when non-empty) through the `SyncableContent` constructor. -/
def collectRemainders (objectType : String) (synced : SC) :
    List SC → Except String (List SC)
  | [] => .ok []
  | c :: rest => do
      let missing := c.data.filterNotIsin c.idField (synced.data.getColumn c.idField)
      let tail ← collectRemainders objectType synced rest
      if missing.rows.length > 0 then
        let sc ← mkSC objectType c.provider missing
        .ok (sc :: tail)
      else
        .ok tail

/-- Pass 3's tail collection (engine.py lines 581-597): for every content
element, its still-unsynced rows projected onto the columns shared with the
basis, null-filled on basis-only columns, stamped with a `provider` column. -/
def pass3Collect (synced : SC) : List SC → List DF
  | [] => []
  | c :: rest =>
      let r := c.data.filterNotIsin c.idField (synced.data.getColumn c.idField)
      let tail := pass3Collect synced rest
      if r.rows.length > 0 then
        let applicable := synced.data.cols.filter (fun x => decide (x ∈ c.data.cols))
        let missingCols := synced.data.cols.filter (fun x => decide (x ∉ c.data.cols))
        let rApp := r.project applicable
        let rApp := missingCols.foldl (fun d m => d.setColumnConst m none) rApp
        let rApp := rApp.setColumnConst "provider" (some (Val.str c.provider))
        rApp :: tail
      else tail

/-- `SyncEngine.synchronize` (engine.py lines 489-620), parameterized by the
`synchronize_pair` implementation (an abstract method the subclasses
override; `baseSynchronizePair` is the base class's own).

* 0 wrappers: the source builds `SyncableContent(self.object_type, "unknown",
  pd.DataFrame())`, so the constructor's column assertion runs on an empty
  frame (engine.py lines 508-509 with 23-26).
* 1 wrapper: returned unchanged.
* Otherwise: Pass 1 (pairwise agglomeration, merge-fold, drop rows missing
  any provider's id), Pass 2 (re-agglomerate remainders, append newly
  fully-synced rows), Pass 3 (append still-unsynced rows as partial rows),
  then the dedup `groupby(join_columns).agg(first non-null).reset_index()`
  and the uniform `provider` stamp. -/
def synchronize (syncPair : SC → SC → Except String (SC × SC × SC))
    (objectType : String) (joinColumns : List String) (content : List SC) :
    Except String SC :=
  match content with
  | [] => mkSC objectType "unknown" emptyDF
  | [c] => .ok c
  | _ => do
    -- first pass: straight matching
    let (content1, results) ← pairLoop syncPair content [] 0 (content.length - 1)
    let syncResult ← match results with
      | [] => .error "IndexError"
      | r0 :: rest => mergeReduce r0 rest
    let idMask := content1.map SC.idField
    let c0 ← match content1 with
      | [] => .error "IndexError"
      | c0 :: _ => .ok c0
    let synced ← mkSC objectType c0.provider (syncResult.data.dropnaSubset idMask)
    -- second pass: relate remainders to each other
    let remainders ← collectRemainders objectType synced content1
    let synced ←
      if remainders.length > 1 then do
        let (_, remResults) ← pairLoop syncPair remainders [] 0 (remainders.length - 1)
        let remaindersResult ← match remResults with
          | [] => .error "IndexError"
          | r0 :: rest => mergeReduce r0 rest
        let remIdMask := (content1.map SC.idField).filter
          (fun x => decide (x ∈ remaindersResult.data.cols))
        let remData := remaindersResult.data.dropnaSubset remIdMask
        if remData.rows.length > 0 then
          pure (synced.appendDF remData)
        else
          pure synced
      else
        pure synced
    -- third pass: add remainders to end
    let remainderDFs := pass3Collect synced content1
    let synced :=
      match remainderDFs with
      | [] => synced
      | d0 :: rest => synced.appendDF (rest.foldl DF.concat d0)
    -- validation / dedupe step
    let dedupedData := dedupeAgg synced.data joinColumns idMask
    let dedupedData := dedupedData.setColumnConst "provider" (some (Val.str c0.provider))
    .ok { synced with data := dedupedData }

/-! ### Supporting lemmas about the table model -/

theorem getCell_cons (c k : String) (v : Cell) (r : Row) :
    Row.getCell ((k, v) :: r) c = if c = k then v else Row.getCell r c := by
  simp only [Row.getCell, List.lookup]
  by_cases h : c = k
  · simp [h]
  · simp [h, beq_false_of_ne h]

theorem getCell_append (c : String) (xs ys : Row) :
    Row.getCell (xs ++ ys) c =
      if (xs.lookup c).isSome then Row.getCell xs c else Row.getCell ys c := by
  simp only [Row.getCell, List.lookup_append]
  cases h : xs.lookup c <;> simp [Option.or, h]

theorem lookup_map_pair (c : String) (g : String → Cell) (cs : List String) :
    (cs.map (fun a => (a, g a))).lookup c = if c ∈ cs then some (g c) else none := by
  induction cs with
  | nil => simp
  | cons a rest ih =>
    simp only [List.map_cons, List.lookup]
    by_cases h : c = a
    · subst h; simp
    · simp only [beq_false_of_ne h, List.mem_cons, ih]
      by_cases hm : c ∈ rest <;> simp [hm, h]

theorem getCell_map_pair (c : String) (g : String → Cell) (cs : List String) :
    Row.getCell (cs.map (fun a => (a, g a))) c = if c ∈ cs then g c else none := by
  simp only [Row.getCell, lookup_map_pair]
  by_cases h : c ∈ cs <;> simp [h]

theorem lookup_zip_none (c : String) (keys : List String) (t : List Cell)
    (h : c ∉ keys) : (keys.zip t).lookup c = none := by
  induction keys generalizing t with
  | nil => simp
  | cons k ks ih =>
    cases t with
    | nil => simp
    | cons v vs =>
      simp only [List.zip_cons_cons, List.lookup]
      have hk : c ≠ k := fun hc => h (hc ▸ List.mem_cons_self k ks)
      simp only [beq_false_of_ne hk]
      exact ih vs (fun hc => h (List.mem_cons_of_mem k hc))

theorem getCell_cons_of_ne (c k : String) (v : Cell) (r : Row) (h : c ≠ k) :
    Row.getCell ((k, v) :: r) c = Row.getCell r c := by
  rw [getCell_cons]; simp [h]

theorem rowKey_cons_of_not_mem (keys : List String) (k : String) (v : Cell)
    (r : Row) (h : k ∉ keys) :
    rowKey keys ((k, v) :: r) = rowKey keys r := by
  simp only [rowKey]
  refine List.map_congr_left (fun c hc => ?_)
  exact getCell_cons_of_ne c k v r (fun he => h (he ▸ hc))

/-- On a row that starts with the zip of (non-duplicated) keys against a
tuple of matching length, the keys read back exactly the tuple. -/
theorem rowKey_zip_append (keys : List String) (t : List Cell) (rest : Row)
    (hk : keys.Nodup) (hlen : t.length = keys.length) :
    rowKey keys (keys.zip t ++ rest) = t := by
  induction keys generalizing t rest with
  | nil => cases t with
    | nil => rfl
    | cons v vs => simp at hlen
  | cons k ks ih =>
    cases t with
    | nil => simp at hlen
    | cons v vs =>
      have hk1 : k ∉ ks := (List.nodup_cons.mp hk).1
      have hk2 : ks.Nodup := (List.nodup_cons.mp hk).2
      have hlen' : vs.length = ks.length := by simpa using hlen
      simp only [List.zip_cons_cons, List.cons_append, rowKey, List.map_cons]
      refine List.cons_eq_cons.mpr ⟨?_, ?_⟩
      · simp [getCell_cons]
      · have h1 := rowKey_cons_of_not_mem ks k v (ks.zip vs ++ rest) hk1
        simp only [rowKey] at h1
        rw [h1]
        have h2 := ih vs rest hk2 hlen'
        simpa [rowKey] using h2

theorem distinctKeysAux_mem (l : List (List Cell)) :
    ∀ (seen : List (List Cell)) (x : List Cell),
      x ∈ distinctKeysAux seen l ↔ x ∈ l ∧ x ∉ seen := by
  induction l with
  | nil => intro seen x; simp [distinctKeysAux]
  | cons t rest ih =>
    intro seen x
    by_cases ht : t ∈ seen
    · simp only [distinctKeysAux, if_pos ht, ih, List.mem_cons]
      constructor
      · exact fun h => ⟨Or.inr h.1, h.2⟩
      · rintro ⟨h1 | h1, h2⟩
        · exact absurd (h1 ▸ ht) h2
        · exact ⟨h1, h2⟩
    · simp only [distinctKeysAux, if_neg ht, List.mem_cons, ih]
      constructor
      · rintro (rfl | ⟨h1, h2⟩)
        · exact ⟨Or.inl rfl, ht⟩
        · exact ⟨Or.inr h1, fun hs => h2 (Or.inr hs)⟩
      · rintro ⟨h1 | h1, h2⟩
        · exact Or.inl h1
        · by_cases hx : x = t
          · exact Or.inl hx
          · exact Or.inr ⟨h1, fun hs => hs.elim hx h2⟩

theorem distinctKeysAux_nodup (l : List (List Cell)) :
    ∀ seen : List (List Cell), (distinctKeysAux seen l).Nodup := by
  induction l with
  | nil => intro seen; simp [distinctKeysAux]
  | cons t rest ih =>
    intro seen
    by_cases ht : t ∈ seen
    · simpa [distinctKeysAux, if_pos ht] using ih seen
    · simp only [distinctKeysAux, if_neg ht]
      refine List.nodup_cons.mpr ⟨?_, ih (t :: seen)⟩
      intro hmem
      have := (distinctKeysAux_mem rest (t :: seen) t).mp hmem
      exact this.2 (List.mem_cons_self t seen)

theorem distinctKeys_mem (l : List (List Cell)) (x : List Cell) :
    x ∈ distinctKeys l ↔ x ∈ l := by
  simp [distinctKeys, distinctKeysAux_mem]

theorem distinctKeys_nodup (l : List (List Cell)) : (distinctKeys l).Nodup :=
  distinctKeysAux_nodup l []

theorem firstNonNull_eq_some (cells : List Cell) (v : Val)
    (hall : ∀ x ∈ cells, x = none ∨ x = some v)
    (hex : ∃ x ∈ cells, x = some v) :
    firstNonNull cells = some v := by
  induction cells with
  | nil => obtain ⟨x, hx, _⟩ := hex; simp at hx
  | cons a rest ih =>
    cases ha : a with
    | none =>
      simp only [firstNonNull, List.findSome?_cons, ha, id]
      refine ih (fun x hx => hall x (List.mem_cons_of_mem a hx)) ?_
      obtain ⟨x, hx, hxv⟩ := hex
      rcases List.mem_cons.mp hx with h | h
      · exact absurd (h ▸ ha) (by rw [hxv]; simp)
      · exact ⟨x, h, hxv⟩
    | some w =>
      have : a = some v := by
        rcases hall a (List.mem_cons_self a rest) with h | h
        · rw [h] at ha; cases ha
        · exact h
      rw [ha] at this
      simp only [firstNonNull, List.findSome?_cons, ha, id]
      exact congrArg some (Option.some.inj this)

theorem firstNonNull_mem (cells : List Cell) (v : Val)
    (h : firstNonNull cells = some v) : some v ∈ cells := by
  obtain ⟨a, ha, hav⟩ := List.exists_of_findSome?_eq_some h
  have : a = some v := hav
  exact this ▸ ha

theorem countP_eq_one_of_nodup_mem {α : Type} [DecidableEq α] (l : List α)
    (a : α) (hn : l.Nodup) (ha : a ∈ l) :
    l.countP (fun x => decide (x = a)) = 1 := by
  induction l with
  | nil => simp at ha
  | cons x xs ih =>
    have hx : x ∉ xs := (List.nodup_cons.mp hn).1
    have hxs : xs.Nodup := (List.nodup_cons.mp hn).2
    rcases List.mem_cons.mp ha with rfl | ha'
    · have h0 : xs.countP (fun x => decide (x = a)) = 0 :=
        List.countP_eq_zero.mpr (fun y hy => by
          simp only [decide_eq_true_eq]
          exact fun h => hx (h ▸ hy))
      simp [List.countP_cons, h0]
    · by_cases hxa : x = a
      · exact absurd (hxa ▸ ha') hx
      · simp only [List.countP_cons, decide_eq_true_eq, hxa, if_false]
        simpa using ih hxs ha'

theorem map_eq_map_mem {α β : Type} {f g : α → β} {l : List α}
    (h : l.map f = l.map g) (a : α) (ha : a ∈ l) : f a = g a := by
  induction l with
  | nil => simp at ha
  | cons x xs ih =>
    simp only [List.map_cons, List.cons_eq_cons] at h
    rcases List.mem_cons.mp ha with rfl | ha'
    · exact h.1
    · exact ih h.2 ha'

theorem mem_validRows (df : DF) (keys : List String) (r : Row) :
    r ∈ validRows df keys ↔ r ∈ df.rows ∧ ∀ k ∈ keys, (r.getCell k).isSome := by
  simp only [validRows, List.mem_filter, List.all_eq_true]

theorem mem_matchingRows (rows : List Row) (keys : List String) (t : List Cell)
    (r : Row) : r ∈ matchingRows rows keys t ↔ r ∈ rows ∧ rowKey keys r = t := by
  simp only [matchingRows, List.mem_filter, decide_eq_true_eq]

theorem groupAggRow_rowKey (valid : List Row) (keys aggCols : List String)
    (t : List Cell) (hk : keys.Nodup) (hlen : t.length = keys.length) :
    rowKey keys (groupAggRow valid keys aggCols t) = t :=
  rowKey_zip_append keys t _ hk hlen

theorem groupAggRow_getCell_agg (valid : List Row) (keys aggCols : List String)
    (t : List Cell) (c : String) (hck : c ∉ keys) (hca : c ∈ aggCols) :
    (groupAggRow valid keys aggCols t).getCell c =
      firstNonNull ((matchingRows valid keys t).map (fun r => r.getCell c)) := by
  show Row.getCell (keys.zip t ++ _) c = _
  rw [getCell_append, lookup_zip_none c keys t hck]
  simp only [Option.isSome_none, Bool.false_eq_true, if_false]
  rw [getCell_map_pair c
    (fun a => firstNonNull ((matchingRows valid keys t).map (fun r => r.getCell a)))
    aggCols]
  simp [hca]

theorem dedupeAgg_rows (df : DF) (keys aggCols : List String) :
    (dedupeAgg df keys aggCols).rows =
      (distinctKeys ((validRows df keys).map (rowKey keys))).map
        (groupAggRow (validRows df keys) keys aggCols) := rfl

theorem dedupe_tuple_spec (df : DF) (keys : List String)
    (t : List Cell) (ht : t ∈ distinctKeys ((validRows df keys).map (rowKey keys))) :
    ∃ r0 ∈ validRows df keys, rowKey keys r0 = t := by
  have := (distinctKeys_mem _ _).mp ht
  exact List.mem_map.mp this

theorem dedupe_tuple_rowKey (df : DF) (keys aggCols : List String)
    (hk : keys.Nodup)
    (t : List Cell) (ht : t ∈ distinctKeys ((validRows df keys).map (rowKey keys))) :
    rowKey keys (groupAggRow (validRows df keys) keys aggCols t) = t := by
  obtain ⟨r0, _, hrt⟩ := dedupe_tuple_spec df keys t ht
  refine groupAggRow_rowKey _ _ _ _ hk ?_
  rw [← hrt]; simp [rowKey]

/-- C2 (amended claim): in the last step of `synchronize()`, the accumulated
table is grouped by exact equality on every column of `join_columns`, but a
row with a null value in any join column is dropped by the `groupby`'s
default `dropna=True` — it is not retained as a singleton group. The output
contains exactly one row per distinct fully-non-null `join_columns` tuple
occurring in the accumulated table: every output row carries a fully
non-null join tuple that occurs among the input rows, no two output rows
share a join tuple, and every fully-non-null input join tuple is
represented. -/
theorem dedupe_group_semantics (df : DF) (keys aggCols : List String)
    (hk : keys.Nodup) :
    (∀ r ∈ (dedupeAgg df keys aggCols).rows, ∀ k ∈ keys, (r.getCell k).isSome)
    ∧ ((dedupeAgg df keys aggCols).rows.map (rowKey keys)).Nodup
    ∧ (∀ r ∈ (dedupeAgg df keys aggCols).rows, ∃ r0 ∈ df.rows,
          (∀ k ∈ keys, (r0.getCell k).isSome) ∧ rowKey keys r0 = rowKey keys r)
    ∧ (∀ r0 ∈ df.rows, (∀ k ∈ keys, (r0.getCell k).isSome) →
          ∃ r ∈ (dedupeAgg df keys aggCols).rows, rowKey keys r = rowKey keys r0) := by
  have hmain : ∀ r ∈ (dedupeAgg df keys aggCols).rows, ∃ r0 ∈ df.rows,
      (∀ k ∈ keys, (r0.getCell k).isSome) ∧ rowKey keys r0 = rowKey keys r := by
    intro r hr
    rw [dedupeAgg_rows] at hr
    obtain ⟨t, ht, rfl⟩ := List.mem_map.mp hr
    obtain ⟨r0, hr0, hrt⟩ := dedupe_tuple_spec df keys t ht
    have hv := (mem_validRows df keys r0).mp hr0
    exact ⟨r0, hv.1, hv.2, by rw [hrt, dedupe_tuple_rowKey df keys aggCols hk t ht]⟩
  refine ⟨?_, ?_, hmain, ?_⟩
  · intro r hr k hkk
    obtain ⟨r0, _, hsome, heq⟩ := hmain r hr
    have h2 : r0.getCell k = r.getCell k :=
      map_eq_map_mem (f := fun c => Row.getCell r0 c)
        (g := fun c => Row.getCell r c) heq k hkk
    rw [← h2]
    exact hsome k hkk
  · rw [dedupeAgg_rows, List.map_map]
    have : ((distinctKeys ((validRows df keys).map (rowKey keys))).map
        (rowKey keys ∘ groupAggRow (validRows df keys) keys aggCols)) =
        distinctKeys ((validRows df keys).map (rowKey keys)) := by
      have := List.map_congr_left (l := distinctKeys ((validRows df keys).map (rowKey keys)))
        (f := rowKey keys ∘ groupAggRow (validRows df keys) keys aggCols) (g := id)
        (fun t ht => dedupe_tuple_rowKey df keys aggCols hk t ht)
      simpa using this
    rw [this]
    exact distinctKeys_nodup _
  · intro r0 hr0 hsome
    have hv : r0 ∈ validRows df keys := (mem_validRows df keys r0).mpr ⟨hr0, hsome⟩
    have ht : rowKey keys r0 ∈ distinctKeys ((validRows df keys).map (rowKey keys)) :=
      (distinctKeys_mem _ _).mpr (List.mem_map_of_mem _ hv)
    refine ⟨groupAggRow (validRows df keys) keys aggCols (rowKey keys r0), ?_, ?_⟩
    · rw [dedupeAgg_rows]
      exact List.mem_map_of_mem _ ht
    · exact dedupe_tuple_rowKey df keys aggCols hk _ ht

/-- C2 witness: the amended dedup-semantics theorem applied to a concrete
two-row table grouped by a `Nodup` pair of join columns. -/
theorem dedupe_group_semantics_witness :
    ((dedupeAgg
        { cols := ["n", "j", "a_t_id"],
          rows := [[("n", some (Val.str "x")), ("j", some (Val.int 7)),
                    ("a_t_id", some (Val.int 1))],
                   [("n", none), ("j", some (Val.int 7)),
                    ("a_t_id", some (Val.int 2))]] }
        ["n", "j"] ["a_t_id"]).rows.all (fun r =>
      (["n", "j"] : List String).all (fun k => (r.getCell k).isSome))) = true := by
  have h := (dedupe_group_semantics
    { cols := ["n", "j", "a_t_id"],
      rows := [[("n", some (Val.str "x")), ("j", some (Val.int 7)),
                ("a_t_id", some (Val.int 1))],
               [("n", none), ("j", some (Val.int 7)),
                ("a_t_id", some (Val.int 2))]] }
    ["n", "j"] ["a_t_id"] (by decide)).1
  simp only [List.all_eq_true]
  intro r hr k hk
  exact h r hr k hk

/-- C2 counterexample: the claim as stated is false — a row whose join
column is null does not survive the final grouping as a singleton row; the
`groupby` drops it, here producing an empty output from a one-row table. -/
theorem dedupe_null_join_row_dropped_counterexample :
    (dedupeAgg
        { cols := ["name", "a_t_id"],
          rows := [[("name", none), ("a_t_id", some (Val.int 1))]] }
        ["name"] ["a_t_id"]).rows.length = 0
    ∧ ({ cols := ["name", "a_t_id"],
         rows := [[("name", none), ("a_t_id", some (Val.int 1))]] } : DF).rows.length
        = 1 := by
  constructor <;> rfl

/-- C1 (amended claim): the no-loss guarantee does not survive the final
dedup `groupby` of `synchronize()`. What does hold for the dedup step: an
identifier value `v` of a provider's id column `c` appears in exactly one
output row provided that, in the accumulated pre-dedup table, `v` occurs in
exactly one row, that row's `join_columns` tuple is fully non-null, and no
other row of the same join-tuple group carries a non-null value in `c`.
Otherwise the identifier can be silently dropped (see the counterexample) or
duplicated. -/
theorem dedupe_identifier_exactly_one (df : DF) (keys aggCols : List String)
    (c : String) (v : Val) (r : Row)
    (hck : c ∉ keys) (hca : c ∈ aggCols)
    (hr : r ∈ df.rows) (hv : r.getCell c = some v)
    (hkeys : ∀ k ∈ keys, (r.getCell k).isSome)
    (huniq : ∀ r' ∈ df.rows, r'.getCell c = some v → r' = r)
    (hgroup : ∀ r' ∈ df.rows, rowKey keys r' = rowKey keys r →
      r' = r ∨ r'.getCell c = none) :
    (dedupeAgg df keys aggCols).rows.countP
      (fun r' => r'.getCell c == some v) = 1 := by
  have hrV : r ∈ validRows df keys := (mem_validRows df keys r).mpr ⟨hr, hkeys⟩
  have htr : rowKey keys r ∈ distinctKeys ((validRows df keys).map (rowKey keys)) :=
    (distinctKeys_mem _ _).mpr (List.mem_map_of_mem _ hrV)
  rw [dedupeAgg_rows, List.countP_map]
  have hiff : ∀ t ∈ distinctKeys ((validRows df keys).map (rowKey keys)),
      (((fun r' => r'.getCell c == some v) ∘
        groupAggRow (validRows df keys) keys aggCols) t = true
        ↔ (decide (t = rowKey keys r)) = true) := by
    intro t ht
    simp only [Function.comp_apply, beq_iff_eq, decide_eq_true_eq]
    rw [groupAggRow_getCell_agg (validRows df keys) keys aggCols t c hck hca]
    constructor
    · intro hfn
      have hmem := firstNonNull_mem _ v hfn
      obtain ⟨r', hr', hr'v⟩ := List.mem_map.mp hmem
      have hm := (mem_matchingRows _ keys t r').mp hr'
      have hr'df : r' ∈ df.rows := ((mem_validRows df keys r').mp hm.1).1
      have : r' = r := huniq r' hr'df hr'v
      rw [← hm.2, this]
    · intro ht'
      have ht'' : t = rowKey keys r := ht'
      subst ht''
      refine firstNonNull_eq_some _ v ?_ ?_
      · intro x hx
        obtain ⟨r', hr', rfl⟩ := List.mem_map.mp hx
        have hm := (mem_matchingRows _ keys (rowKey keys r) r').mp hr'
        have hr'df : r' ∈ df.rows := ((mem_validRows df keys r').mp hm.1).1
        rcases hgroup r' hr'df hm.2 with rfl | hnone
        · exact Or.inr hv
        · exact Or.inl hnone
      · refine ⟨r.getCell c, List.mem_map_of_mem _ ?_, hv⟩
        exact (mem_matchingRows _ keys (rowKey keys r) r).mpr ⟨hrV, rfl⟩
  rw [List.countP_congr hiff]
  exact countP_eq_one_of_nodup_mem _ _ (distinctKeys_nodup _) htr

/-- C1 witness: the amended dedup theorem applied to a concrete accumulated
table in which identifier 1 of column `a_t_id` occurs once, on a row whose
join tuple is non-null and whose group companion carries a null id. -/
theorem dedupe_identifier_exactly_one_witness :
    (dedupeAgg
        { cols := ["name", "a_t_id"],
          rows := [[("name", some (Val.str "x")), ("a_t_id", some (Val.int 1))],
                   [("name", some (Val.str "x")), ("a_t_id", none)]] }
        ["name"] ["a_t_id"]).rows.countP
      (fun r' => r'.getCell "a_t_id" == some (Val.int 1)) = 1 := by
  refine dedupe_identifier_exactly_one
    { cols := ["name", "a_t_id"],
      rows := [[("name", some (Val.str "x")), ("a_t_id", some (Val.int 1))],
               [("name", some (Val.str "x")), ("a_t_id", none)]] }
    ["name"] ["a_t_id"] "a_t_id" (Val.int 1)
    [("name", some (Val.str "x")), ("a_t_id", some (Val.int 1))]
    (by decide) (by decide) (by decide) (by decide) (by decide)
    (by decide) (by decide)

/-- The two-provider content of the C1 counterexample: provider `a` supplies
two distinct identifiers (1 and 2) that share the join-column value `x`;
provider `b` supplies an empty table (its `synchronize_pair` branch is the
base class's own, so the whole pipeline is the unmodified base-engine code
path). -/
def c1ProviderA : SC :=
  { objectType := "t", provider := "a",
    data := { cols := ["a_t_id", "name"],
              rows := [[("a_t_id", some (Val.int 1)), ("name", some (Val.str "x"))],
                       [("a_t_id", some (Val.int 2)), ("name", some (Val.str "x"))]] } }

/-- See `c1ProviderA`. -/
def c1ProviderB : SC :=
  { objectType := "t", provider := "b",
    data := { cols := ["b_t_id"], rows := [] } }

/-- C1 counterexample: the claim's preconditions hold (two providers, no
duplicate identifiers within any provider's input), identifier 2 appears in
provider `a`'s input, yet no row of the `synchronize()` output carries
`a_t_id = 2` — the final dedup merges the two rows sharing join tuple `x`
and keeps only the first non-null identifier, so the claimed count of
exactly one fails with count zero. -/
theorem synchronize_no_loss_counterexample :
    (synchronize baseSynchronizePair "t" ["name"] [c1ProviderA, c1ProviderB]).map
      (fun sc => sc.data.rows.countP
        (fun r => r.getCell "a_t_id" == some (Val.int 2))) = Except.ok 0
    ∧ [c1ProviderA, c1ProviderB].length = 2
    ∧ (c1ProviderA.data.getColumn c1ProviderA.idField).Nodup
    ∧ (c1ProviderB.data.getColumn c1ProviderB.idField).Nodup
    ∧ some (Val.int 2) ∈ c1ProviderA.data.getColumn c1ProviderA.idField := by
  refine ⟨rfl, rfl, by decide, by decide, by decide⟩

/-- C4: with zero wrappers, `synchronize()` does not return the documented
"unknown"-tagged empty wrapper: the branch builds
`SyncableContent(self.object_type, "unknown", pd.DataFrame())`, whose
constructor asserts that `unknown_{object_type}_id` is a column of the empty
frame, which fails — the call raises an `AssertionError` instead of
returning. The theorem holds for every `synchronize_pair` implementation and
every `join_columns` choice, here recorded for the `player` entity type. -/
theorem synchronize_empty_content_raises
    (syncPair : SC → SC → Except String (SC × SC × SC))
    (joinColumns : List String) :
    synchronize syncPair "player" joinColumns [] =
      Except.error "Field `unknown_player_id` must be available as a column in `data`" := by
  rfl

theorem sum_map_ones {α : Type} (l : List α) :
    (l.map (fun _ => (1 : Nat))).sum = l.length := by
  induction l with
  | nil => rfl
  | cons x xs ih => simp [ih, Nat.add_comm]

theorem matchingRows_length_le_one (rows : List Row) (keys : List String)
    (t : List Cell) (h : (rows.map (rowKey keys)).Nodup) :
    (matchingRows rows keys t).length ≤ 1 := by
  induction rows with
  | nil => simp [matchingRows]
  | cons r rest ih =>
    simp only [List.map_cons, List.nodup_cons] at h
    by_cases hr : rowKey keys r = t
    · have h0 : (rest.filter (fun r' => decide (rowKey keys r' = t))).length = 0 := by
        rw [List.length_eq_zero]
        refine List.filter_eq_nil_iff.mpr (fun r' hr' => ?_)
        simp only [decide_eq_true_eq]
        intro ht
        apply h.1
        rw [hr, ← ht]
        exact List.mem_map_of_mem (rowKey keys) hr'
      simp only [matchingRows, List.filter_cons]
      rw [if_pos (by simp [hr])]
      simp only [List.length_cons]
      omega
    · simp only [matchingRows, List.filter_cons]
      rw [if_neg (by simp [hr])]
      exact ih h.2

theorem leftMergeRows_length_one (overlap rcols keys : List String)
    (rRows : List Row) (lr : Row)
    (hle : (matchingRows rRows keys (rowKey keys lr)).length ≤ 1) :
    (leftMergeRows overlap rcols keys rRows lr).length = 1 := by
  rcases hms : matchingRows rRows keys (rowKey keys lr) with _ | ⟨a, tl⟩
  · simp [leftMergeRows, hms]
  · rw [hms] at hle
    simp only [List.length_cons] at hle
    have htl : tl.length = 0 := by omega
    simp [leftMergeRows, hms, htl]

theorem leftMerge_length (l r : DF) (keys : List String)
    (h : (r.rows.map (rowKey keys)).Nodup) :
    (l.leftMerge r keys).rows.length = l.rows.length := by
  show (l.rows.flatMap
    (leftMergeRows (mergeOverlap l r keys) (mergeRCols l r keys) keys r.rows)).length
      = l.rows.length
  rw [List.length_flatMap]
  have hcongr : ∀ lr ∈ l.rows,
      (List.length ∘
        leftMergeRows (mergeOverlap l r keys) (mergeRCols l r keys) keys r.rows) lr
        = (fun _ => (1 : Nat)) lr := by
    intro lr _
    exact leftMergeRows_length_one _ _ _ _ _
      (matchingRows_length_le_one r.rows keys (rowKey keys lr) h)
  rw [List.map_congr_left hcongr, sum_map_ones]

theorem project_getCell_col (df : DF) (cs : List String) (k : String) (hk : k ∈ cs) :
    (df.project cs).rows.map (fun r => r.getCell k) =
      df.rows.map (fun r => r.getCell k) := by
  simp only [DF.project, List.map_map]
  refine List.map_congr_left (fun r _ => ?_)
  show Row.getCell (cs.map (fun c => (c, r.getCell c))) k = r.getCell k
  rw [getCell_map_pair k (fun c => r.getCell c) cs]
  simp [hk]

theorem nodup_rowKey_single (rows : List Row) (k : String)
    (h : (rows.map (fun r => r.getCell k)).Nodup) :
    (rows.map (rowKey [k])).Nodup := by
  have heq : rows.map (rowKey [k]) =
      (rows.map (fun r => r.getCell k)).map (fun x => [x]) := by
    rw [List.map_map]; rfl
  rw [heq]
  exact h.map (fun x y hxy => by simpa using hxy)

/-- C5 (amended claim): `L.merge(R)` preserves `L`'s row count whenever the
values of `R`'s `id_field` column are pairwise distinct; when `R.data`
contains repeated values in its `id_field` column, the left join fans out
and the row count strictly grows (see the counterexample). -/
theorem merge_row_count_preserved (l r : SC)
    (htype : l.objectType = r.objectType)
    (hkey : r.idField ∈ l.data.cols)
    (hrcol : r.idField ∈ r.data.cols)
    (hmask : strContains r.idField ("_" ++ l.objectType ++ "_id") = true)
    (hnodup : (r.data.getColumn r.idField).Nodup) :
    ∃ m, SC.merge l r = Except.ok m ∧ m.data.rows.length = l.data.rows.length := by
  rw [SC.merge, if_neg (fun hne => hne htype), if_neg (fun hne => hne hkey)]
  refine ⟨_, rfl, ?_⟩
  refine leftMerge_length l.data _ [r.idField] ?_
  refine nodup_rowKey_single _ r.idField ?_
  have hk : r.idField ∈ r.data.cols.filter
      (fun c => strContains c ("_" ++ l.objectType ++ "_id")) :=
    List.mem_filter.mpr ⟨hrcol, hmask⟩
  rw [project_getCell_col r.data _ r.idField hk]
  exact hnodup

/-- C5 witness: the amended row-count theorem at a concrete pair of wrappers
whose right identifier column has pairwise distinct values. -/
theorem merge_row_count_preserved_witness :
    ∃ m, SC.merge
      { objectType := "t", provider := "a",
        data := { cols := ["a_t_id", "b_t_id"],
                  rows := [[("a_t_id", some (Val.int 1)), ("b_t_id", some (Val.int 9))],
                           [("a_t_id", some (Val.int 2)), ("b_t_id", none)]] } }
      { objectType := "t", provider := "b",
        data := { cols := ["b_t_id", "c_t_id"],
                  rows := [[("b_t_id", some (Val.int 9)), ("c_t_id", some (Val.int 5))]] } }
      = Except.ok m ∧ m.data.rows.length = 2 :=
  merge_row_count_preserved
    { objectType := "t", provider := "a",
      data := { cols := ["a_t_id", "b_t_id"],
                rows := [[("a_t_id", some (Val.int 1)), ("b_t_id", some (Val.int 9))],
                         [("a_t_id", some (Val.int 2)), ("b_t_id", none)]] } }
    { objectType := "t", provider := "b",
      data := { cols := ["b_t_id", "c_t_id"],
                rows := [[("b_t_id", some (Val.int 9)), ("c_t_id", some (Val.int 5))]] } }
    (by decide) (by decide) (by decide) (by decide) (by decide)

/-- C5 counterexample: the claim as stated is false — with a repeated value
in `R`'s `id_field` column, the left join duplicates the matching left row,
so `len(L.merge(R).data)` is 2 while `len(L.data)` is 1, although both
wrappers share the entity type and `R.id_field` is a column of `L.data`. -/
theorem merge_duplicate_right_keys_counterexample :
    (SC.merge
      { objectType := "t", provider := "a",
        data := { cols := ["a_t_id", "b_t_id"],
                  rows := [[("a_t_id", some (Val.int 1)),
                            ("b_t_id", some (Val.int 9))]] } }
      { objectType := "t", provider := "b",
        data := { cols := ["b_t_id"],
                  rows := [[("b_t_id", some (Val.int 9))],
                           [("b_t_id", some (Val.int 9))]] } }).map
      (fun m => m.data.rows.length) = Except.ok 2 := by
  rfl

theorem lookup_map_overwrite (r : Row) (c : String) (v : Cell) :
    (r.map (fun p => if p.1 = c then (c, v) else p)).lookup c =
      if (r.lookup c).isSome then some v else none := by
  induction r with
  | nil => simp
  | cons p rest ih =>
    obtain ⟨k, w⟩ := p
    by_cases hk : k = c
    · subst hk
      have hq : (if ((k, w) : String × Cell).1 = k then (k, v)
          else ((k, w) : String × Cell)) = (k, v) := by simp
      rw [List.map_cons, hq, List.lookup_cons, List.lookup_cons]
      simp
    · have hbeq : (c == k) = false := beq_false_of_ne (Ne.symm hk)
      have hq : (if ((k, w) : String × Cell).1 = c then (c, v)
          else ((k, w) : String × Cell)) = (k, w) := by simp [hk]
      rw [List.map_cons, hq, List.lookup_cons, List.lookup_cons]
      cases hbeq2 : (c == k) with
      | true =>
          have hck : c = k := by simpa using hbeq2
          exact absurd hck.symm hk
      | false => simp [ih]

theorem getCell_setCell_same (r : Row) (c : String) (v : Cell) :
    (r.setCell c v).getCell c = v := by
  rw [Row.setCell]
  by_cases h : (r.lookup c).isSome
  · rw [if_pos h, Row.getCell, lookup_map_overwrite, if_pos h]
  · rw [if_neg h, Row.getCell, List.lookup_append]
    have hnone : r.lookup c = none := by
      cases hl : r.lookup c
      · rfl
      · rw [hl] at h; simp at h
    simp [hnone, List.lookup]

theorem lookup_map_overwrite_ne (r : Row) (c c' : String) (v : Cell)
    (h : c' ≠ c) :
    (r.map (fun p => if p.1 = c then (c, v) else p)).lookup c' = r.lookup c' := by
  induction r with
  | nil => simp
  | cons p rest ih =>
    obtain ⟨k, w⟩ := p
    by_cases hk : k = c
    · subst hk
      have h1 : (c' == k) = false := beq_false_of_ne h
      have hq : (if ((k, w) : String × Cell).1 = k then (k, v)
          else ((k, w) : String × Cell)) = (k, v) := by simp
      rw [List.map_cons, hq, List.lookup_cons, List.lookup_cons]
      simp [h1, ih]
    · have hq : (if ((k, w) : String × Cell).1 = c then (c, v)
          else ((k, w) : String × Cell)) = (k, w) := by simp [hk]
      rw [List.map_cons, hq, List.lookup_cons, List.lookup_cons]
      cases hbeq : (c' == k) <;> simp [hbeq, ih]

theorem getCell_setCell_ne (r : Row) (c c' : String) (v : Cell) (h : c' ≠ c) :
    (r.setCell c v).getCell c' = r.getCell c' := by
  rw [Row.setCell]
  by_cases hs : (r.lookup c).isSome
  · rw [if_pos hs]
    simp only [Row.getCell]
    rw [lookup_map_overwrite_ne r c c' v h]
  · rw [if_neg hs]
    simp only [Row.getCell, List.lookup_append]
    have hc' : List.lookup c' [(c, v)] = none := by
      simp [List.lookup, beq_false_of_ne h]
    cases hl : r.lookup c' <;> simp [hl, hc', Option.or]

theorem setColumnConst_mem_cols (df : DF) (c : String) (v : Cell) :
    c ∈ (df.setColumnConst c v).cols := by
  rw [DF.setColumnConst]
  by_cases h : c ∈ df.cols
  · simpa [if_pos h] using h
  · simp [if_neg h]

/-- C9: the empty-side branch of `synchronize_pair` mutates its argument.
When exactly one input's table is empty, the branch shared verbatim by the
base engine (engine.py 479-485) and the match (match.py 192-198), team
(team.py 122-128) and player (player.py 340-346) overrides adds an all-null
column named after the empty side's `id_field` directly to the non-empty
input's own table and returns that same mutated wrapper: the post-state of
the non-empty argument and the returned wrapper are one and the same value,
with the new column present, null on every row, and the row count
unchanged. -/
theorem sync_pair_empty_side_mutates (i1 i2 : SC) :
    (i1.data.rows.length = 0 → i2.data.rows.length > 0 →
      baseSynchronizePair i1 i2 =
        Except.ok (i1, { i2 with data := i2.data.setColumnConst i1.idField none },
          { i2 with data := i2.data.setColumnConst i1.idField none })
      ∧ i1.idField ∈ (i2.data.setColumnConst i1.idField none).cols
      ∧ (∀ r ∈ (i2.data.setColumnConst i1.idField none).rows,
          r.getCell i1.idField = none)
      ∧ (i2.data.setColumnConst i1.idField none).rows.length = i2.data.rows.length)
    ∧ (i1.data.rows.length > 0 → i2.data.rows.length = 0 →
      baseSynchronizePair i1 i2 =
        Except.ok ({ i1 with data := i1.data.setColumnConst i2.idField none }, i2,
          { i1 with data := i1.data.setColumnConst i2.idField none })
      ∧ i2.idField ∈ (i1.data.setColumnConst i2.idField none).cols
      ∧ (∀ r ∈ (i1.data.setColumnConst i2.idField none).rows,
          r.getCell i2.idField = none)
      ∧ (i1.data.setColumnConst i2.idField none).rows.length = i1.data.rows.length) := by
  constructor
  · intro h1 h2
    refine ⟨?_, setColumnConst_mem_cols _ _ _, ?_, by simp [DF.setColumnConst]⟩
    · rw [baseSynchronizePair, if_pos ⟨h1, h2⟩]
    · intro r hr
      obtain ⟨r0, _, rfl⟩ := List.mem_map.mp hr
      exact getCell_setCell_same r0 i1.idField none
  · intro h1 h2
    have hcond : ¬ (i1.data.rows.length = 0 ∧ i2.data.rows.length > 0) := by
      rintro ⟨ha, _⟩; omega
    refine ⟨?_, setColumnConst_mem_cols _ _ _, ?_, by simp [DF.setColumnConst]⟩
    · rw [baseSynchronizePair, if_neg hcond, if_pos ⟨h1, h2⟩]
    · intro r hr
      obtain ⟨r0, _, rfl⟩ := List.mem_map.mp hr
      exact getCell_setCell_same r0 i2.idField none

/-- C9 witness: the mutation theorem at a concrete pair in which the second
input's table is empty. -/
theorem sync_pair_empty_side_mutates_witness :
    baseSynchronizePair
        { objectType := "t", provider := "a",
          data := { cols := ["a_t_id"], rows := [[("a_t_id", some (Val.int 1))]] } }
        { objectType := "t", provider := "b",
          data := { cols := ["b_t_id"], rows := [] } } =
      Except.ok
        ({ objectType := "t", provider := "a",
           data := ({ cols := ["a_t_id"], rows := [[("a_t_id", some (Val.int 1))]] } :
             DF).setColumnConst "b_t_id" none },
         { objectType := "t", provider := "b",
           data := { cols := ["b_t_id"], rows := [] } },
         { objectType := "t", provider := "a",
           data := ({ cols := ["a_t_id"], rows := [[("a_t_id", some (Val.int 1))]] } :
             DF).setColumnConst "b_t_id" none })
    ∧ "b_t_id" ∈ (({ cols := ["a_t_id"], rows := [[("a_t_id", some (Val.int 1))]] } :
        DF).setColumnConst "b_t_id" none).cols := by
  have h := (sync_pair_empty_side_mutates
    { objectType := "t", provider := "a",
      data := { cols := ["a_t_id"], rows := [[("a_t_id", some (Val.int 1))]] } }
    { objectType := "t", provider := "b",
      data := { cols := ["b_t_id"], rows := [] } }).2
    (by decide) (by decide)
  exact ⟨h.1, h.2.1⟩

/-- Python's built-in `min` on two rationals (`min(a, b)` returns `a` on
ties): kept as an explicit conditional so that concrete evaluation reduces. -/
def ratMin (a b : ℚ) : ℚ := if a ≤ b then a else b

/-- Python's built-in `max` on two rationals (`max(a, b)` returns `a` on
ties). -/
def ratMax (a b : ℚ) : ℚ := if b ≤ a then a else b

/-- The count of non-null entries of one column, as the source computes it
(`len(data.loc[data[f].notna(), ...])`). -/
def notnaCount (df : DF) (f : String) : Nat :=
  ((df.getColumn f).filter Option.isSome).length

/-- The validation-and-clamping prefix of
`SyncEngine.synchronize_with_cosine_similarity` (engine.py lines 284-308):
every assertion the function performs, in source order, followed by the
threshold adjustment `max(min(threshold, 1.0), 0.0)`. None of the
assertions inspects the threshold; the remainder of the function consumes
`adjusted_threshold` without further validation, so this prefix decides
"reject vs. clamp" exactly. Thresholds are floats in the source; they are
embedded as rationals, which is faithful for the order comparisons and the
exact clamping the code performs. -/
def cosineSimPrefix (i1 i2 : SC) (f1 f2 : String) (threshold : ℚ) :
    Except String ℚ :=
  if f1 ∉ i1.data.cols then
    .error "First element of `fields` must exist in `input1.data`."
  else if f2 ∉ i2.data.cols then
    .error "Second element of `fields` must exist in `input2.data`."
  else if ¬ (i1.data.rows.length > 0 ∧ i2.data.rows.length > 0) then
    .error "Both SyncableContent objects must be non-empty."
  else if ¬ (notnaCount i1.data f1 > 0 ∧ notnaCount i2.data f2 > 0) then
    .error "Both SyncableContent objects must have > 0 non-null elements in `data`."
  else
    .ok (ratMax (ratMin threshold 1) 0)

/-- The validation-and-clamping prefix of
`SyncEngine.synchronize_with_fuzzy_match` (engine.py lines 195-225): same
assertions, then `adjusted_threshold = max(min(threshold, 1.0), 0.0) * 100`. -/
def fuzzySimPrefix (i1 i2 : SC) (f1 f2 : String) (threshold : ℚ) :
    Except String ℚ :=
  if f1 ∉ i1.data.cols then
    .error "First element of `fields` must exist in `input1.data`."
  else if f2 ∉ i2.data.cols then
    .error "Second element of `fields` must exist in `input2.data`."
  else if ¬ (i1.data.rows.length > 0 ∧ i2.data.rows.length > 0) then
    .error "Both SyncableContent objects must be non-empty."
  else if ¬ (notnaCount i1.data f1 > 0 ∧ notnaCount i2.data f2 > 0) then
    .error "Both SyncableContent objects must have > 0 non-null elements in `data`."
  else
    .ok ((ratMax (ratMin threshold 1) 0) * 100)

/-- C6 (amended claim): an out-of-range similarity threshold is not
rejected — both routines silently clamp it into `[0, 1]` (as their
docstrings state) and none of their validation errors depends on the
threshold: whether the call fails is invariant under changing the
threshold, and whenever the checks pass, the adjusted threshold is the
clamp `max(min(t, 1), 0)` (times 100 for the fuzzy routine), hence always
in range. -/
theorem threshold_clamped_never_rejected (i1 i2 : SC) (f1 f2 : String)
    (t t' : ℚ) :
    (cosineSimPrefix i1 i2 f1 f2 t =
      (cosineSimPrefix i1 i2 f1 f2 t').map (fun _ => ratMax (ratMin t 1) 0))
    ∧ (fuzzySimPrefix i1 i2 f1 f2 t =
      (cosineSimPrefix i1 i2 f1 f2 t').map (fun _ => (ratMax (ratMin t 1) 0) * 100))
    ∧ 0 ≤ ratMax (ratMin t 1) 0 ∧ ratMax (ratMin t 1) 0 ≤ 1 := by
  refine ⟨?_, ?_, ?_, ?_⟩
  · unfold cosineSimPrefix
    split_ifs <;> rfl
  · unfold fuzzySimPrefix cosineSimPrefix
    split_ifs <;> rfl
  · unfold ratMax ratMin
    split_ifs <;> linarith
  · unfold ratMax ratMin
    split_ifs <;> linarith

/-- A concrete valid (non-empty, field-bearing) input pair for the C6
counterexample. -/
def c6Input1 : SC :=
  { objectType := "t", provider := "a",
    data := { cols := ["a_t_id", "nm"],
              rows := [[("a_t_id", some (Val.int 1)),
                        ("nm", some (Val.str "x"))]] } }

/-- See `c6Input1`. -/
def c6Input2 : SC :=
  { objectType := "t", provider := "b",
    data := { cols := ["b_t_id", "nm"],
              rows := [[("b_t_id", some (Val.int 2)),
                        ("nm", some (Val.str "y"))]] } }

/-- C6 counterexample: the claim as stated is false — with non-empty valid
inputs and the out-of-range thresholds 2 and -1, neither routine fails:
the cosine routine's validation passes and the threshold is clamped to 1
(resp. 0), and the fuzzy routine proceeds with the adjusted threshold 100;
the out-of-range value is silently coerced, exactly as the functions'
docstrings describe. -/
theorem threshold_out_of_range_not_rejected_counterexample :
    cosineSimPrefix c6Input1 c6Input2 "nm" "nm" 2 = Except.ok 1
    ∧ cosineSimPrefix c6Input1 c6Input2 "nm" "nm" (-1) = Except.ok 0
    ∧ fuzzySimPrefix c6Input1 c6Input2 "nm" "nm" 2 = Except.ok 100 := by
  refine ⟨rfl, rfl, ?_⟩
  have h1 : fuzzySimPrefix c6Input1 c6Input2 "nm" "nm" 2
      = Except.ok ((ratMax (ratMin (2 : ℚ) 1) 0) * 100) := rfl
  rw [h1]
  norm_num [ratMax, ratMin]

/-- Is join column `j` unreliable for provider table `c`, in the source's
order of checks (player.py lines 72-84): wholly absent from the columns, or
not fully populated (some null present). -/
def columnUnreliable (c : SC) (j : String) : Bool :=
  decide (j ∉ c.data.cols) || decide (notnaCount c.data j ≠ c.data.rows.length)

/-- One provider's pass of the join-column reliability loop of
`PlayerSyncEngine.__init__` (player.py lines 70-84):

    for j in join_cols:
        if j not in c.data.columns: join_cols.remove(j); break
        if len(c.data[c.data[j].notna()]) != len(c.data): join_cols.remove(j); break

The `break` exits the scan right after the first removal, so each provider
removes at most one column: the first (in the current list's order) that is
unreliable for it. -/
def removeFirstUnreliable (cols : List String) (c : SC) : List String :=
  match cols.find? (fun j => columnUnreliable c j) with
  | some j => cols.erase j
  | none => cols

/-- The join-column computation of `PlayerSyncEngine.__init__` (player.py
lines 66-87): start from `[jersey_number, team_id, player_name]`, run the
reliability loop over the providers in order, then `assert len(join_cols) > 0`. -/
def playerJoinColumns (content : List SC) : Except String (List String) :=
  let cols := content.foldl removeFirstUnreliable
    ["jersey_number", "team_id", "player_name"]
  if cols.length > 0 then .ok cols
  else .error "AssertionError: no join columns remain"

/-- C8: the construction-time reliability filter does not drop every
unreliable column. For a single provider whose table lacks both
`jersey_number` and `team_id` (with `player_name` present and fully
populated), the loop removes only `jersey_number` — the `break` ends that
provider's scan — and construction succeeds with
`join_columns = [team_id, player_name]`, retaining `team_id` even though it
is wholly absent from the provider's table (both `team_id` and
`jersey_number` are unreliable here, as the last two conjuncts record).
The claim (and the spec) say both would be dropped, leaving
`[player_name]`. -/
theorem player_join_columns_break_bug :
    playerJoinColumns
        [{ objectType := "player", provider := "p",
           data := { cols := ["p_player_id", "player_name"],
                     rows := [[("p_player_id", some (Val.int 1)),
                               ("player_name", some (Val.str "A"))]] } }]
      = Except.ok ["team_id", "player_name"]
    ∧ columnUnreliable
        { objectType := "player", provider := "p",
          data := { cols := ["p_player_id", "player_name"],
                    rows := [[("p_player_id", some (Val.int 1)),
                              ("player_name", some (Val.str "A"))]] } }
        "team_id" = true
    ∧ columnUnreliable
        { objectType := "player", provider := "p",
          data := { cols := ["p_player_id", "player_name"],
                    rows := [[("p_player_id", some (Val.int 1)),
                              ("player_name", some (Val.str "A"))]] } }
        "jersey_number" = true
    ∧ columnUnreliable
        { objectType := "player", provider := "p",
          data := { cols := ["p_player_id", "player_name"],
                    rows := [[("p_player_id", some (Val.int 1)),
                              ("player_name", some (Val.str "A"))]] } }
        "player_name" = false := by
  refine ⟨rfl, by decide, by decide, by decide⟩

/-! ### String and row lemmas for the `_x`/`_y` suffix bookkeeping -/

theorem string_data_inj {a b : String} (h : a.data = b.data) : a = b := by
  cases a; cases b; simp_all

theorem str_append_cancel {a b : String} (s : String) (h : a ++ s = b ++ s) :
    a = b := by
  refine string_data_inj ?_
  have hd := congrArg String.data h
  rw [String.data_append, String.data_append] at hd
  exact List.append_cancel_right hd

theorem str_sfx_xy_ne (a b : String) : a ++ "_x" ≠ b ++ "_y" := by
  intro h
  have hd := congrArg String.data h
  rw [String.data_append, String.data_append] at hd
  have hx : ("_x" : String).data = ['_', 'x'] := rfl
  have hy : ("_y" : String).data = ['_', 'y'] := rfl
  rw [hx, hy] at hd
  have h1 : (a.data ++ ['_']) ++ ['x'] = (b.data ++ ['_']) ++ ['y'] := by
    simpa [List.append_assoc] using hd
  have h2 := congrArg List.getLast? h1
  rw [List.getLast?_concat, List.getLast?_concat] at h2
  exact absurd (Option.some.inj h2) (by decide)

theorem lookup_none_of_names_ne (r : Row) (c : String)
    (h : ∀ p ∈ r, p.1 ≠ c) : r.lookup c = none := by
  induction r with
  | nil => rfl
  | cons p rest ih =>
    obtain ⟨k, w⟩ := p
    have hk : (c == k) = false :=
      beq_false_of_ne (fun he => h (k, w) (List.mem_cons_self _ _) he.symm)
    rw [List.lookup_cons]
    simp only [hk]
    exact ih (fun q hq => h q (List.mem_cons_of_mem _ hq))

theorem getCell_none_of_names_ne (r : Row) (c : String)
    (h : ∀ p ∈ r, p.1 ≠ c) : r.getCell c = none := by
  rw [Row.getCell, lookup_none_of_names_ne r c h]

theorem getCell_append_tail_ne (xs ys : Row) (c : String)
    (hys : ∀ p ∈ ys, p.1 ≠ c) : Row.getCell (xs ++ ys) c = xs.getCell c := by
  rw [getCell_append]
  by_cases h : (xs.lookup c).isSome
  · rw [if_pos h]
  · rw [if_neg h, getCell_none_of_names_ne ys c hys]
    rw [Row.getCell]
    cases hl : xs.lookup c
    · rfl
    · rw [hl] at h; simp at h

theorem getCell_filter_pred (r : Row) (c : String) (pred : String × Cell → Bool)
    (h : ∀ p ∈ r, pred p = false → p.1 ≠ c) :
    Row.getCell (r.filter pred) c = r.getCell c := by
  induction r with
  | nil => rfl
  | cons p rest ih =>
    obtain ⟨k, w⟩ := p
    cases hp : pred (k, w) with
    | true =>
      rw [List.filter_cons_of_pos hp]
      rw [getCell_cons, getCell_cons]
      by_cases hck : c = k
      · simp [hck]
      · simp only [hck, if_false]
        exact ih (fun q hq hpq => h q (List.mem_cons_of_mem _ hq) hpq)
    | false =>
      have hkc : k ≠ c := h (k, w) (List.mem_cons_self _ _) hp
      rw [List.filter_cons_of_neg (by simp [hp])]
      rw [ih (fun q hq hpq => h q (List.mem_cons_of_mem _ hq) hpq)]
      rw [getCell_cons_of_ne c k w rest (fun he => hkc he.symm)]

theorem getCell_renameRow_target (r : Row) (a b : String)
    (hb : ∀ p ∈ r, p.1 ≠ b) :
    Row.getCell (r.map (fun p => if p.1 = a then (b, p.2) else p)) b =
      r.getCell a := by
  induction r with
  | nil => rfl
  | cons p rest ih =>
    obtain ⟨k, w⟩ := p
    by_cases hk : k = a
    · subst hk
      have hq : (if ((k, w) : String × Cell).1 = k then (b, w)
          else ((k, w) : String × Cell)) = (b, w) := by simp
      rw [List.map_cons, hq, getCell_cons, getCell_cons]
      simp
    · have hq : (if ((k, w) : String × Cell).1 = a then (b, w)
          else ((k, w) : String × Cell)) = (k, w) := by simp [hk]
      rw [List.map_cons, hq, getCell_cons, getCell_cons]
      have hbk : b ≠ k := fun he => hb (k, w) (List.mem_cons_self _ _) he.symm
      have hak : ¬ (a = k) := fun he => hk he.symm
      simp only [hbk, hak, if_false]
      exact ih (fun q hq' => hb q (List.mem_cons_of_mem _ hq'))

theorem getCell_renameRow_other (r : Row) (a b c : String)
    (hca : c ≠ a) (hcb : c ≠ b) :
    Row.getCell (r.map (fun p => if p.1 = a then (b, p.2) else p)) c =
      r.getCell c := by
  induction r with
  | nil => rfl
  | cons p rest ih =>
    obtain ⟨k, w⟩ := p
    by_cases hk : k = a
    · subst hk
      have hq : (if ((k, w) : String × Cell).1 = k then (b, w)
          else ((k, w) : String × Cell)) = (b, w) := by simp
      rw [List.map_cons, hq, getCell_cons_of_ne c b w _ hcb,
        getCell_cons_of_ne c k w rest hca, ih]
    · have hq : (if ((k, w) : String × Cell).1 = a then (b, w)
          else ((k, w) : String × Cell)) = (k, w) := by simp [hk]
      rw [List.map_cons, hq, getCell_cons, getCell_cons]
      by_cases hck : c = k
      · simp [hck]
      · simp only [hck, if_false]
        exact ih

theorem getCell_renameOverlap_target (lr : Row) (ov : List String)
    (sfx : String) (o : String) (ho : o ∈ ov)
    (h1 : ∀ p ∈ lr, p.1 ∉ ov → p.1 ≠ o ++ sfx) :
    Row.getCell (renameOverlap ov sfx lr) (o ++ sfx) = lr.getCell o := by
  induction lr with
  | nil => rfl
  | cons p rest ih =>
    obtain ⟨k, w⟩ := p
    by_cases hk : k ∈ ov
    · have hq : (if ((k, w) : String × Cell).1 ∈ ov then (k ++ sfx, w)
          else ((k, w) : String × Cell)) = (k ++ sfx, w) := by simp [hk]
      rw [renameOverlap, List.map_cons, hq]
      by_cases hko : k = o
      · subst hko
        rw [getCell_cons, getCell_cons]
        simp
      · have hne : o ++ sfx ≠ k ++ sfx := fun he =>
          hko ((str_append_cancel sfx he).symm)
        rw [getCell_cons_of_ne _ _ _ _ hne,
          getCell_cons_of_ne o k w rest (fun he => hko he.symm)]
        exact ih (fun q hq' => h1 q (List.mem_cons_of_mem _ hq'))
    · have hq : (if ((k, w) : String × Cell).1 ∈ ov then (k ++ sfx, w)
          else ((k, w) : String × Cell)) = (k, w) := by simp [hk]
      rw [renameOverlap, List.map_cons, hq]
      have hne : o ++ sfx ≠ k :=
        fun he => (h1 (k, w) (List.mem_cons_self _ _) hk) he.symm
      have hne2 : o ≠ k := fun he => hk (he ▸ ho)
      rw [getCell_cons_of_ne _ _ _ _ hne, getCell_cons_of_ne o k w rest hne2]
      exact ih (fun q hq' => h1 q (List.mem_cons_of_mem _ hq'))

theorem getCell_renameOverlap_keep (lr : Row) (ov : List String)
    (sfx : String) (k0 : String) (hk0 : k0 ∉ ov)
    (h1 : ∀ p ∈ lr, p.1 ∈ ov → p.1 ++ sfx ≠ k0) :
    Row.getCell (renameOverlap ov sfx lr) k0 = lr.getCell k0 := by
  induction lr with
  | nil => rfl
  | cons p rest ih =>
    obtain ⟨k, w⟩ := p
    by_cases hk : k ∈ ov
    · have hq : (if ((k, w) : String × Cell).1 ∈ ov then (k ++ sfx, w)
          else ((k, w) : String × Cell)) = (k ++ sfx, w) := by simp [hk]
      rw [renameOverlap, List.map_cons, hq]
      have hne : k0 ≠ k ++ sfx :=
        fun he => (h1 (k, w) (List.mem_cons_self _ _) hk) he.symm
      have hne2 : k0 ≠ k := fun he => hk0 (he ▸ hk)
      rw [getCell_cons_of_ne _ _ _ _ hne, getCell_cons_of_ne k0 k w rest hne2]
      exact ih (fun q hq' => h1 q (List.mem_cons_of_mem _ hq'))
    · have hq : (if ((k, w) : String × Cell).1 ∈ ov then (k ++ sfx, w)
          else ((k, w) : String × Cell)) = (k, w) := by simp [hk]
      rw [renameOverlap, List.map_cons, hq]
      rw [getCell_cons, getCell_cons]
      by_cases hck : k0 = k
      · simp [hck]
      · simp only [hck, if_false]
        exact ih (fun q hq' => h1 q (List.mem_cons_of_mem _ hq'))

theorem mem_leftMerge_decomp (l r : DF) (keys : List String) (row : Row)
    (h : row ∈ (l.leftMerge r keys).rows) :
    ∃ lr ∈ l.rows, ∃ tail : Row,
      row = renameOverlap (mergeOverlap l r keys) "_x" lr ++ tail
      ∧ (tail = (mergeRCols l r keys).map (fun c => (c, (none : Cell)))
        ∨ ∃ rr ∈ r.rows,
            tail = renameOverlap (mergeOverlap l r keys) "_y"
              (rr.filter (fun p => decide (p.1 ∉ keys)))) := by
  obtain ⟨lr, hlr, hmem⟩ := List.mem_flatMap.mp h
  refine ⟨lr, hlr, ?_⟩
  rw [leftMergeRows] at hmem
  rcases hms : matchingRows r.rows keys (rowKey keys lr) with _ | ⟨a0, tl⟩
  · rw [hms] at hmem
    simp only [List.mem_singleton] at hmem
    exact ⟨_, hmem, Or.inl rfl⟩
  · rw [hms] at hmem
    obtain ⟨rr, hrr, hrow⟩ := List.mem_map.mp hmem
    have hrr' : rr ∈ r.rows := by
      have : rr ∈ matchingRows r.rows keys (rowKey keys lr) := hms ▸ hrr
      exact List.mem_of_mem_filter this
    exact ⟨_, hrow.symm, Or.inr ⟨rr, hrr', rfl⟩⟩

theorem tail_names_ne (l r : DF) (keys : List String) (tail : Row) (c : String)
    (htail : tail = (mergeRCols l r keys).map (fun c' => (c', (none : Cell)))
      ∨ ∃ rr ∈ r.rows, tail = renameOverlap (mergeOverlap l r keys) "_y"
          (rr.filter (fun p => decide (p.1 ∉ keys))))
    (hRbind : ∀ row ∈ r.rows, ∀ p ∈ row, p.1 ∈ r.cols)
    (hplain : ∀ n ∈ r.cols, n ∉ keys → n ∉ mergeOverlap l r keys → n ≠ c)
    (hsfx : ∀ n ∈ r.cols, n ++ "_y" ≠ c) :
    ∀ p ∈ tail, p.1 ≠ c := by
  rcases htail with rfl | ⟨rr, hrr, rfl⟩
  · intro p hp
    obtain ⟨n', hn', rfl⟩ := List.mem_map.mp hp
    obtain ⟨n, hn, rfl⟩ := List.mem_map.mp hn'
    have hncols : n ∈ r.cols := List.mem_of_mem_filter hn
    have hnkeys : n ∉ keys := by
      have := List.of_mem_filter hn
      simpa using this
    by_cases hov : n ∈ mergeOverlap l r keys
    · simpa [hov] using hsfx n hncols
    · simpa [hov] using hplain n hncols hnkeys hov
  · intro p hp
    obtain ⟨q, hq, rfl⟩ := List.mem_map.mp hp
    have hq1 : q ∈ rr := List.mem_of_mem_filter hq
    have hqcols : q.1 ∈ r.cols := hRbind rr hrr q hq1
    have hqkeys : q.1 ∉ keys := by
      have := List.of_mem_filter hq
      simpa using this
    by_cases hov : q.1 ∈ mergeOverlap l r keys
    · simpa [hov] using hsfx q.1 hqcols
    · simpa [hov] using hplain q.1 hqcols hqkeys hov

theorem mergeOverlap_subset_left (l r : DF) (keys : List String) :
    ∀ c ∈ mergeOverlap l r keys, c ∈ l.cols := by
  intro c hc
  exact List.mem_of_mem_filter hc

theorem mergeOverlap_props (l r : DF) (keys : List String) :
    ∀ c ∈ mergeOverlap l r keys, c ∉ keys ∧ c ∈ r.cols := by
  intro c hc
  have := List.of_mem_filter hc
  simp only [Bool.and_eq_true, decide_eq_true_eq] at this
  exact this

theorem mem_mergeOverlap (l r : DF) (keys : List String) (c : String)
    (h1 : c ∈ l.cols) (h2 : c ∉ keys) (h3 : c ∈ r.cols) :
    c ∈ mergeOverlap l r keys := by
  refine List.mem_filter.mpr ⟨h1, ?_⟩
  simp [h2, h3]

/-- Structure of a row produced by the merge a later tier performs
(`pd.merge(sync_result, attempt_syncs, on=input1.id_field, how="left")`):
every output row originates from a source row `lr`, reads `lr`'s `id2`
value under the suffixed name `id2_x`, keeps `lr`'s key cell under `id1`,
and carries no binding named plain `id2`. -/
theorem leftMerge_row_fields (s a : DF) (id1 id2 : String)
    (h1 : id2 ≠ id1) (h2 : id2 ∈ s.cols) (h3 : id2 ∈ a.cols)
    (hLbind : ∀ row ∈ s.rows, ∀ p ∈ row, p.1 ∈ s.cols)
    (hRbind : ∀ row ∈ a.rows, ∀ p ∈ row, p.1 ∈ a.cols)
    (hLx : ∀ c ∈ s.cols, c ≠ id2 ++ "_x" ∧ c ≠ id2 ++ "_y")
    (hRx : ∀ c ∈ a.cols, c ≠ id2 ++ "_x" ∧ c ≠ id2 ++ "_y")
    (hid1L : ∀ c ∈ s.cols, id1 ≠ c ++ "_x")
    (hid1R : ∀ c ∈ a.cols, id1 ≠ c ++ "_y")
    (hid2L : ∀ c ∈ s.cols, id2 ≠ c ++ "_x")
    (hid2R : ∀ c ∈ a.cols, id2 ≠ c ++ "_y") :
    ∀ row ∈ (s.leftMerge a [id1]).rows, ∃ lr ∈ s.rows,
      row.getCell (id2 ++ "_x") = lr.getCell id2
      ∧ row.getCell id1 = lr.getCell id1
      ∧ (∀ p ∈ row, p.1 ≠ id2) := by
  intro row hrow
  obtain ⟨lr, hlr, tail, rfl, htail⟩ := mem_leftMerge_decomp s a [id1] row hrow
  have hov : id2 ∈ mergeOverlap s a [id1] :=
    mem_mergeOverlap s a [id1] id2 h2 (by simp [h1]) h3
  have hid1ov : id1 ∉ mergeOverlap s a [id1] := by
    intro hmem
    have := (mergeOverlap_props s a [id1] id1 hmem).1
    simp at this
  refine ⟨lr, hlr, ?_, ?_, ?_⟩
  · rw [getCell_append_tail_ne _ _ _
      (tail_names_ne s a [id1] tail (id2 ++ "_x") htail hRbind
        (fun n hn _ _ => (hRx n hn).1)
        (fun n hn he => str_sfx_xy_ne id2 n he.symm))]
    exact getCell_renameOverlap_target lr _ "_x" id2 hov
      (fun p hp _ => (hLx p.1 (hLbind lr hlr p hp)).1)
  · rw [getCell_append_tail_ne _ _ _
      (tail_names_ne s a [id1] tail id1 htail hRbind
        (fun n _ hn _ he => hn (List.mem_singleton.mpr he))
        (fun n hn he => (hid1R n hn) he.symm))]
    exact getCell_renameOverlap_keep lr _ "_x" id1 hid1ov
      (fun p hp hpov he =>
        (hid1L p.1 (mergeOverlap_subset_left s a [id1] p.1 hpov)) he.symm)
  · intro p hp
    rcases List.mem_append.mp hp with hpl | hpt
    · obtain ⟨q, hq, rfl⟩ := List.mem_map.mp hpl
      by_cases hqov : q.1 ∈ mergeOverlap s a [id1]
      · have hqcols : q.1 ∈ s.cols := hLbind lr hlr q hq
        simpa [hqov] using fun he => (hid2L q.1 hqcols) he.symm
      · have hq2 : q.1 ≠ id2 := fun he => hqov (by rw [he]; exact hov)
        simpa [hqov] using hq2
    · exact tail_names_ne s a [id1] tail id2 htail hRbind
        (fun n _ _ hnov he => hnov (he ▸ hov))
        (fun n hn he => (hid2R n hn) he.symm) p hpt

theorem getCell_rowCoalesce_self (o : String) (row : Row) :
    (rowCoalesce o row).getCell o =
      if (row.getCell (o ++ "_x")).isSome then row.getCell (o ++ "_x")
      else row.getCell (o ++ "_y") := by
  show Row.getCell
    ((row.filter fun p => decide (p.1 ≠ o ++ "_x") && decide (p.1 ≠ o ++ "_y")
        && decide (p.1 ≠ o)) ++
      [(o, if (row.getCell (o ++ "_x")).isSome then row.getCell (o ++ "_x")
        else row.getCell (o ++ "_y"))]) o = _
  have hfilter : ∀ p ∈ row.filter (fun p => decide (p.1 ≠ o ++ "_x")
      && decide (p.1 ≠ o ++ "_y") && decide (p.1 ≠ o)), p.1 ≠ o := by
    intro p hp
    have := List.of_mem_filter hp
    simp only [Bool.and_eq_true, decide_eq_true_eq] at this
    exact this.2
  rw [getCell_append, lookup_none_of_names_ne _ o hfilter]
  simp [getCell_cons]

theorem getCell_rowCoalesce_other (o c : String) (row : Row)
    (hc1 : c ≠ o) (hc2 : c ≠ o ++ "_x") (hc3 : c ≠ o ++ "_y") :
    (rowCoalesce o row).getCell c = row.getCell c := by
  show Row.getCell
    ((row.filter fun p => decide (p.1 ≠ o ++ "_x") && decide (p.1 ≠ o ++ "_y")
        && decide (p.1 ≠ o)) ++ [(o, _)]) c = _
  rw [getCell_append_tail_ne _ _ c
    (by intro p hp
        rw [List.mem_singleton] at hp
        rw [hp]
        exact fun he => hc1 he.symm)]
  refine getCell_filter_pred row c _ (fun p _ hpred => ?_)
  simp only [Bool.and_eq_true, decide_eq_true_eq, Bool.and_eq_false_iff,
    decide_eq_false_iff_not, not_not] at hpred
  rcases hpred with (h | h) | h
  · exact fun he => hc2 (he ▸ h)
  · exact fun he => hc3 (he ▸ h)
  · exact fun he => hc1 (he ▸ h)

theorem coalesceOne_rows_pos (df : DF) (o : String)
    (h : (o ++ "_x") ∈ df.cols ∧ (o ++ "_y") ∈ df.cols) :
    (coalesceOne df o).rows = df.rows.map (rowCoalesce o) := by
  rw [coalesceOne, if_pos h]

theorem leftMerge_cols_mem_x (s a : DF) (keys : List String) (o : String)
    (ho : o ∈ mergeOverlap s a keys) :
    (o ++ "_x") ∈ (s.leftMerge a keys).cols := by
  refine List.mem_append.mpr (Or.inl ?_)
  refine List.mem_map.mpr ⟨o, mergeOverlap_subset_left s a keys o ho, ?_⟩
  simp [ho]

theorem leftMerge_cols_mem_y (s a : DF) (keys : List String) (o : String)
    (ho : o ∈ mergeOverlap s a keys) :
    (o ++ "_y") ∈ (s.leftMerge a keys).cols := by
  refine List.mem_append.mpr (Or.inr ?_)
  have hprops := mergeOverlap_props s a keys o ho
  refine List.mem_map.mpr ⟨o, ?_, by simp [ho]⟩
  refine List.mem_filter.mpr ⟨hprops.2, by simpa using hprops.1⟩

/-- A later tier's gap-filling step shared by the team cascade (team.py
lines 163-166 and 203-207) and the match cascade (match.py lines 247-251 and
278-282):

    sync_result = pd.merge(sync_result, attempt_syncs, on=input1.id_field, how="left")
    dataframe_coalesce(sync_result, [input2.id_field])
-/
def tierStep (syncResult attempt : DF) (id1 id2 : String) : DF :=
  dataframe_coalesce (syncResult.leftMerge attempt [id1]) [id2]

/-- The player cascade's gap-filling step (player.py lines 488-507):

    sync_result = pd.merge(sync_result, attempt_syncs, on=input1.id_field, how="left")
    mask = sync_result[id1].isin(attempt_syncs[id1])
    sync_result.loc[mask, f"{id2}_x"] = sync_result.loc[mask, f"{id2}_y"]
    sync_result.drop([f"{id2}_y"], axis=1, inplace=True)
    sync_result.rename({f"{id2}_x": id2}, axis=1, inplace=True)
-/
def playerTierStep (syncResult attempt : DF) (id1 id2 : String) : DF :=
  let m := syncResult.leftMerge attempt [id1]
  let attemptIds := attempt.getColumn id1
  let m2 : DF := { m with rows := m.rows.map (fun r =>
      if decide (r.getCell id1 ∈ attemptIds)
      then r.setCell (id2 ++ "_x") (r.getCell (id2 ++ "_y")) else r) }
  (m2.dropColumn (id2 ++ "_y")).renameColumn (id2 ++ "_x") id2

/-- C3: the never-overwrite (COALESCE) invariant of the pairwise matcher
cascades. For both tier-application forms the source uses — the
merge-then-`dataframe_coalesce` step of the team and match cascades
(`tierStep`) and the merge-then-masked-overwrite step of the player cascade
(`playerTierStep`) — every output row originates from a row `lr` of the
accumulating pair result, keeps `lr`'s key cell, and, whenever `lr` already
held a non-null identifier in the `id2` cell, carries exactly that value:
a later tier never changes a non-null cell established earlier.

The hypotheses record the ambient well-formedness the cascades guarantee:
row bindings lie within the declared columns, no column name is already
`_x`/`_y`-suffixed relative to the identifier columns, and — for the player
step, which overwrites the `id2_x` cell of every row whose key is among the
tier's matched keys — the matched keys come only from still-unmatched rows
(`remaining_1` excludes every identifier of `synced`), so rows they touch
have a null `id2` cell. -/
theorem matcher_tiers_never_override (s a : DF) (id1 id2 : String)
    (h1 : id2 ≠ id1) (h2 : id2 ∈ s.cols) (h3 : id2 ∈ a.cols)
    (hLbind : ∀ row ∈ s.rows, ∀ p ∈ row, p.1 ∈ s.cols)
    (hRbind : ∀ row ∈ a.rows, ∀ p ∈ row, p.1 ∈ a.cols)
    (hLx : ∀ c ∈ s.cols, c ≠ id2 ++ "_x" ∧ c ≠ id2 ++ "_y")
    (hRx : ∀ c ∈ a.cols, c ≠ id2 ++ "_x" ∧ c ≠ id2 ++ "_y")
    (hid1L : ∀ c ∈ s.cols, id1 ≠ c ++ "_x")
    (hid1R : ∀ c ∈ a.cols, id1 ≠ c ++ "_y")
    (hid2L : ∀ c ∈ s.cols, id2 ≠ c ++ "_x")
    (hid2R : ∀ c ∈ a.cols, id2 ≠ c ++ "_y")
    (hdisj : ∀ row ∈ s.rows, row.getCell id1 ∈ a.getColumn id1 →
      row.getCell id2 = none) :
    (∀ row ∈ (tierStep s a id1 id2).rows, ∃ lr ∈ s.rows,
        row.getCell id1 = lr.getCell id1
        ∧ ((lr.getCell id2).isSome → row.getCell id2 = lr.getCell id2))
    ∧ (∀ row ∈ (playerTierStep s a id1 id2).rows, ∃ lr ∈ s.rows,
        row.getCell id1 = lr.getCell id1
        ∧ ((lr.getCell id2).isSome → row.getCell id2 = lr.getCell id2)) := by
  have hov : id2 ∈ mergeOverlap s a [id1] :=
    mem_mergeOverlap s a [id1] id2 h2 (by simp [h1]) h3
  have hfields := leftMerge_row_fields s a id1 id2 h1 h2 h3 hLbind hRbind
    hLx hRx hid1L hid1R hid2L hid2R
  have hid1x : id1 ≠ id2 ++ "_x" := hid1L id2 h2
  have hid1y : id1 ≠ id2 ++ "_y" := hid1R id2 h3
  have hid1id2 : id1 ≠ id2 := fun he => h1 he.symm
  constructor
  · intro row hrow
    have hcond : (id2 ++ "_x") ∈ (s.leftMerge a [id1]).cols
        ∧ (id2 ++ "_y") ∈ (s.leftMerge a [id1]).cols :=
      ⟨leftMerge_cols_mem_x s a [id1] id2 hov,
        leftMerge_cols_mem_y s a [id1] id2 hov⟩
    have hrows : (tierStep s a id1 id2).rows =
        (s.leftMerge a [id1]).rows.map (rowCoalesce id2) :=
      coalesceOne_rows_pos _ id2 hcond
    rw [hrows] at hrow
    obtain ⟨row0, hrow0, rfl⟩ := List.mem_map.mp hrow
    obtain ⟨lr, hlr, hA, hB, _⟩ := hfields row0 hrow0
    refine ⟨lr, hlr, ?_, ?_⟩
    · rw [getCell_rowCoalesce_other id2 id1 row0 hid1id2 hid1x hid1y]
      exact hB
    · intro hsome
      rw [getCell_rowCoalesce_self id2 row0, hA, if_pos hsome]
  · intro row hrow
    obtain ⟨row2, hrow2, rfl⟩ := List.mem_map.mp hrow
    obtain ⟨row1, hrow1, rfl⟩ := List.mem_map.mp hrow2
    obtain ⟨row0, hrow0, rfl⟩ := List.mem_map.mp hrow1
    obtain ⟨lr, hlr, hA, hB, hC⟩ := hfields row0 hrow0
    have hyx : id2 ++ "_x" ≠ id2 ++ "_y" := str_sfx_xy_ne id2 id2
    refine ⟨lr, hlr, ?_, ?_⟩
    · rw [getCell_renameRow_other _ (id2 ++ "_x") id2 id1 hid1x hid1id2]
      rw [getCell_filter_pred _ id1 _ (fun p _ hpred => by
        simp only [decide_eq_false_iff_not, not_not] at hpred
        exact fun he => hid1y (he ▸ hpred))]
      by_cases hmask : row0.getCell id1 ∈ a.getColumn id1
      · rw [if_pos (by simpa using hmask),
          getCell_setCell_ne _ (id2 ++ "_x") id1 _ hid1x]
        exact hB
      · rw [if_neg (by simpa using hmask)]
        exact hB
    · intro hsome
      have hmaskF : row0.getCell id1 ∉ a.getColumn id1 := by
        intro hmem
        have := hdisj lr hlr (hB ▸ hmem)
        rw [this] at hsome
        simp at hsome
      rw [if_neg (by simpa using hmaskF)]
      rw [getCell_renameRow_target _ (id2 ++ "_x") id2
        (fun p hp => hC p (List.mem_of_mem_filter hp))]
      rw [getCell_filter_pred _ (id2 ++ "_x") _ (fun p _ hpred => by
        simp only [decide_eq_false_iff_not, not_not] at hpred
        exact fun he => hyx (he ▸ hpred))]
      rw [hA]

/-- The accumulator frame of the C3 witness: one already-matched row
(key 1, `b_t_id` 9) and one unmatched row (key 5, null `b_t_id`). -/
def c3Sync : DF :=
  { cols := ["a_t_id", "b_t_id"],
    rows := [[("a_t_id", some (Val.int 1)), ("b_t_id", some (Val.int 9))],
             [("a_t_id", some (Val.int 5)), ("b_t_id", none)]] }

/-- The tier's match frame of the C3 witness: it targets only key 5. -/
def c3Attempt : DF :=
  { cols := ["a_t_id", "b_t_id"],
    rows := [[("a_t_id", some (Val.int 5)), ("b_t_id", some (Val.int 7))]] }

/-- C3 witness: the never-override theorem at a concrete pair of frames. -/
theorem matcher_tiers_never_override_witness :
    ((tierStep c3Sync c3Attempt "a_t_id" "b_t_id").rows.all (fun row =>
      c3Sync.rows.any (fun lr =>
        decide (row.getCell "a_t_id" = lr.getCell "a_t_id") &&
        (!(lr.getCell "b_t_id").isSome ||
          decide (row.getCell "b_t_id" = lr.getCell "b_t_id"))))) = true := by
  have h := (matcher_tiers_never_override c3Sync c3Attempt "a_t_id" "b_t_id"
    (by decide) (by decide) (by decide) (by decide) (by decide) (by decide)
    (by decide) (by decide) (by decide) (by decide) (by decide) (by decide)).1
  simp only [List.all_eq_true, List.any_eq_true]
  intro row hrow
  obtain ⟨lr, hlr, hA, hB⟩ := h row hrow
  refine ⟨lr, hlr, ?_⟩
  rw [Bool.and_eq_true, Bool.or_eq_true]
  refine ⟨decide_eq_true hA, ?_⟩
  cases hb : (lr.getCell "b_t_id").isSome with
  | false => exact Or.inl rfl
  | true => exact Or.inr (decide_eq_true (hB hb))

/-! ### Cosine-similarity utility (`glass_onion.utils.apply_cosine_similarity`) -/

/-- All ways to pick an ordered list of `k` pairwise-distinct elements of
`avail`. -/
def chooseInj : Nat → List Nat → List (List Nat)
  | 0, _ => [[]]
  | k + 1, avail =>
      avail.flatMap (fun x => (chooseInj k (avail.erase x)).map (fun rest => x :: rest))

theorem chooseInj_length (k : Nat) :
    ∀ (avail : List Nat) (sel : List Nat), sel ∈ chooseInj k avail →
      sel.length = k := by
  induction k with
  | zero =>
    intro avail sel h
    simp only [chooseInj, List.mem_singleton] at h
    simp [h]
  | succ n ih =>
    intro avail sel h
    simp only [chooseInj] at h
    obtain ⟨x, _, hsel⟩ := List.mem_flatMap.mp h
    obtain ⟨rest, hrest, rfl⟩ := List.mem_map.mp hsel
    simp [ih (avail.erase x) rest hrest]

theorem chooseInj_subset (k : Nat) :
    ∀ (avail : List Nat) (sel : List Nat), sel ∈ chooseInj k avail →
      ∀ x ∈ sel, x ∈ avail := by
  induction k with
  | zero =>
    intro avail sel h
    simp only [chooseInj, List.mem_singleton] at h
    simp [h]
  | succ n ih =>
    intro avail sel h
    simp only [chooseInj] at h
    obtain ⟨x, hx, hsel⟩ := List.mem_flatMap.mp h
    obtain ⟨rest, hrest, rfl⟩ := List.mem_map.mp hsel
    intro y hy
    rcases List.mem_cons.mp hy with rfl | hy'
    · exact hx
    · exact List.mem_of_mem_erase (ih (avail.erase x) rest hrest y hy')

theorem chooseInj_nodup (k : Nat) :
    ∀ (avail : List Nat), avail.Nodup → ∀ sel ∈ chooseInj k avail,
      sel.Nodup := by
  induction k with
  | zero =>
    intro avail _ sel h
    simp only [chooseInj, List.mem_singleton] at h
    simp [h]
  | succ n ih =>
    intro avail hav sel h
    simp only [chooseInj] at h
    obtain ⟨x, hx, hsel⟩ := List.mem_flatMap.mp h
    obtain ⟨rest, hrest, rfl⟩ := List.mem_map.mp hsel
    refine List.nodup_cons.mpr ⟨?_, ih (avail.erase x) (hav.erase x) rest hrest⟩
    intro hmem
    have hx' : x ∈ avail.erase x :=
      chooseInj_subset n (avail.erase x) rest hrest x hmem
    exact (List.Nodup.mem_erase_iff hav).mp hx' |>.1 rfl

theorem chooseInj_exists (k : Nat) :
    ∀ (avail : List Nat), k ≤ avail.length →
      ∃ sel, sel ∈ chooseInj k avail := by
  induction k with
  | zero => intro avail _; exact ⟨[], by simp [chooseInj]⟩
  | succ n ih =>
    intro avail hlen
    rcases avail with _ | ⟨x, rest⟩
    · simp at hlen
    · have hx : x ∈ x :: rest := List.mem_cons_self x rest
      have hlen' : n ≤ ((x :: rest).erase x).length := by
        rw [List.length_erase_of_mem hx]
        simp only [List.length_cons] at hlen ⊢
        omega
      obtain ⟨sel, hsel⟩ := ih ((x :: rest).erase x) hlen'
      refine ⟨x :: sel, ?_⟩
      simp only [chooseInj]
      exact List.mem_flatMap.mpr ⟨x, hx, List.mem_map.mpr ⟨sel, hsel, rfl⟩⟩

/-- The total similarity of an assignment, the quantity scipy's solver
maximizes. -/
def assignScore (sim : Nat → Nat → ℚ) (pairs : List (Nat × Nat)) : ℚ :=
  (pairs.map (fun p => sim p.1 p.2)).sum

/-- Modelled from the spec: `scipy.optimize.linear_sum_assignment(cost_matrix,
maximize=True)` is a library call, not repository code. The spec describes it
as solving the rectangular linear assignment problem, maximizing total
similarity, to obtain a one-to-one pairing between the smaller and larger
side. It is modelled as an exhaustive argmax over all injective index
selections of size `min r c` (rows assigned to distinct columns when
`r ≤ c`, else columns to distinct rows); the claims rely only on the shape
of the result — `min r c` in-range one-to-one pairs — not on optimality or
tie-breaking. -/
def linear_sum_assignment (r c : Nat) (sim : Nat → Nat → ℚ) : List (Nat × Nat) :=
  if r ≤ c then
    match ((chooseInj r (List.range c)).map
        (fun cols => (List.range r).zip cols)).argmax (assignScore sim) with
    | some best => best
    | none => []
  else
    match ((chooseInj c (List.range r)).map
        (fun rws => rws.zip (List.range c))).argmax (assignScore sim) with
    | some best => best
    | none => []

theorem linear_sum_assignment_spec (r c : Nat) (sim : Nat → Nat → ℚ) :
    (linear_sum_assignment r c sim).length = min r c
    ∧ ((linear_sum_assignment r c sim).map Prod.fst).Nodup
    ∧ ((linear_sum_assignment r c sim).map Prod.snd).Nodup
    ∧ ∀ p ∈ linear_sum_assignment r c sim, p.1 < r ∧ p.2 < c := by
  by_cases hrc : r ≤ c
  · have hdef : linear_sum_assignment r c sim =
        match ((chooseInj r (List.range c)).map
            (fun cols => (List.range r).zip cols)).argmax (assignScore sim) with
        | some best => best
        | none => [] := by
      rw [linear_sum_assignment, if_pos hrc]
    rcases hm : ((chooseInj r (List.range c)).map
        (fun cols => (List.range r).zip cols)).argmax (assignScore sim) with _ | best
    · exfalso
      rw [List.argmax_eq_none, List.map_eq_nil_iff] at hm
      obtain ⟨sel, hsel⟩ := chooseInj_exists r (List.range c) (by simpa using hrc)
      rw [hm] at hsel
      simp at hsel
    · have hlsa : linear_sum_assignment r c sim = best := by rw [hdef, hm]
      have hbest : best ∈ ((chooseInj r (List.range c)).map
          (fun cols => (List.range r).zip cols)) := List.argmax_mem hm
      obtain ⟨cols, hcols, hzip⟩ := List.mem_map.mp hbest
      have hlen : cols.length = r := chooseInj_length r (List.range c) cols hcols
      have hlr : (List.range r).length ≤ cols.length := by simp [hlen]
      have hlr2 : cols.length ≤ (List.range r).length := by simp [hlen]
      rw [hlsa, ← hzip]
      refine ⟨?_, ?_, ?_, ?_⟩
      · simp [hlen, Nat.min_eq_left hrc]
      · rw [List.map_fst_zip _ _ hlr]
        exact List.nodup_range r
      · rw [List.map_snd_zip _ _ hlr2]
        exact chooseInj_nodup r (List.range c) (List.nodup_range c) cols hcols
      · intro p hp
        obtain ⟨h1, h2⟩ := List.of_mem_zip hp
        exact ⟨List.mem_range.mp h1,
          List.mem_range.mp (chooseInj_subset r (List.range c) cols hcols p.2 h2)⟩
  · have hcr : c ≤ r := le_of_not_le hrc
    have hdef : linear_sum_assignment r c sim =
        match ((chooseInj c (List.range r)).map
            (fun rws => rws.zip (List.range c))).argmax (assignScore sim) with
        | some best => best
        | none => [] := by
      rw [linear_sum_assignment, if_neg hrc]
    rcases hm : ((chooseInj c (List.range r)).map
        (fun rws => rws.zip (List.range c))).argmax (assignScore sim) with _ | best
    · exfalso
      rw [List.argmax_eq_none, List.map_eq_nil_iff] at hm
      obtain ⟨sel, hsel⟩ := chooseInj_exists c (List.range r) (by simpa using hcr)
      rw [hm] at hsel
      simp at hsel
    · have hlsa : linear_sum_assignment r c sim = best := by rw [hdef, hm]
      have hbest : best ∈ ((chooseInj c (List.range r)).map
          (fun rws => rws.zip (List.range c))) := List.argmax_mem hm
      obtain ⟨rws, hrws, hzip⟩ := List.mem_map.mp hbest
      have hlen : rws.length = c := chooseInj_length c (List.range r) rws hrws
      have hlr : rws.length ≤ (List.range c).length := by simp [hlen]
      have hlr2 : (List.range c).length ≤ rws.length := by simp [hlen]
      rw [hlsa, ← hzip]
      refine ⟨?_, ?_, ?_, ?_⟩
      · simp [hlen, Nat.min_eq_right hcr]
      · rw [List.map_fst_zip _ _ hlr]
        exact chooseInj_nodup c (List.range r) (List.nodup_range r) rws hrws
      · rw [List.map_snd_zip _ _ hlr2]
        exact List.nodup_range c
      · intro p hp
        obtain ⟨h1, h2⟩ := List.of_mem_zip hp
        exact ⟨List.mem_range.mp (chooseInj_subset c (List.range r) rws hrws p.1 h1),
          List.mem_range.mp h2⟩

/-- One Similarity Match Row of `apply_cosine_similarity`'s output
(utils.py lines 432-440). -/
structure SimRow where
  input1 : String
  input1Normalized : String
  input2 : String
  input2Normalized : String
  similarity : ℚ
deriving DecidableEq, Repr

/-- `glass_onion.utils.apply_cosine_similarity` (utils.py lines 367-442),
parameterized by two external collaborators it consumes:

* `normalize` models `series_normalize` applied element-wise (its accent
  stripping runs through the third-party `unidecode` transliteration table,
  so it is kept abstract; no claim depends on its value);
* `simMatrix norm2 norm1 i j` models
  `cosine_similarity(tfidf_i2, tfidf_i1)[i][j]` — the TF-IDF vectorization
  and cosine kernel of scikit-learn, float-valued in the source, abstracted
  to an arbitrary rational matrix of the two normalized corpora.

The repository's own steps are embedded directly: drop nulls from both
inputs, fail when either side has no non-null element, normalize, solve the
assignment over the `len(input2') × len(input1')` matrix, and emit one row
per assigned pair carrying the original strings, their normalized forms,
and the matrix score. -/
def applyCosineRows (normalize : String → String)
    (simMatrix : List String → List String → Nat → Nat → ℚ)
    (input1 input2 : List (Option String)) : List SimRow :=
  (linear_sum_assignment (input2.filterMap id).length (input1.filterMap id).length
      (simMatrix ((input2.filterMap id).map normalize)
        ((input1.filterMap id).map normalize))).map (fun rc =>
    { input1 := (input1.filterMap id).getD rc.2 "",
      input1Normalized := ((input1.filterMap id).map normalize).getD rc.2 "",
      input2 := (input2.filterMap id).getD rc.1 "",
      input2Normalized := ((input2.filterMap id).map normalize).getD rc.1 "",
      similarity := simMatrix ((input2.filterMap id).map normalize)
        ((input1.filterMap id).map normalize) rc.1 rc.2 })

/-- See the module docstring of `applyCosineRows` above: the success path of
the function — assignment over the `len(input2') × len(input1')` similarity
matrix, one Similarity Match Row per assigned pair. -/
def apply_cosine_similarity (normalize : String → String)
    (simMatrix : List String → List String → Nat → Nat → ℚ)
    (input1 input2 : List (Option String)) : Except String (List SimRow) :=
  if (input1.filterMap id).length = 0 ∨ (input2.filterMap id).length = 0 then
    .error "Both `input1` and `input2` must include > 0 non-null/NA elements."
  else
    .ok (applyCosineRows normalize simMatrix input1 input2)

/-- C7: shape of `apply_cosine_similarity`. It fails exactly when one input
has no non-null element after dropping nulls; otherwise it returns exactly
`min |A'| |B'|` rows (`A'`, `B'` the non-null subsets), built from a
one-to-one assignment — no position of `A'` and no position of `B'` occurs
in more than one returned row, every index is in range — and each row
carries the original pre-normalization strings at the assigned positions,
their normalized forms, and the matrix similarity score of the assigned
pair. -/
theorem apply_cosine_similarity_shape (normalize : String → String)
    (simMatrix : List String → List String → Nat → Nat → ℚ)
    (input1 input2 : List (Option String)) :
    ((input1.filterMap id).length = 0 ∨ (input2.filterMap id).length = 0 →
      apply_cosine_similarity normalize simMatrix input1 input2 =
        Except.error "Both `input1` and `input2` must include > 0 non-null/NA elements.")
    ∧ ((input1.filterMap id).length ≠ 0 → (input2.filterMap id).length ≠ 0 →
      ∃ rows, apply_cosine_similarity normalize simMatrix input1 input2 = Except.ok rows
        ∧ rows.length = min (input1.filterMap id).length (input2.filterMap id).length
        ∧ ∃ pairs : List (Nat × Nat),
            (pairs.map Prod.fst).Nodup
            ∧ (pairs.map Prod.snd).Nodup
            ∧ (∀ p ∈ pairs, p.1 < (input2.filterMap id).length
                ∧ p.2 < (input1.filterMap id).length)
            ∧ rows = pairs.map (fun rc =>
                { input1 := (input1.filterMap id).getD rc.2 "",
                  input1Normalized :=
                    ((input1.filterMap id).map normalize).getD rc.2 "",
                  input2 := (input2.filterMap id).getD rc.1 "",
                  input2Normalized :=
                    ((input2.filterMap id).map normalize).getD rc.1 "",
                  similarity := simMatrix ((input2.filterMap id).map normalize)
                    ((input1.filterMap id).map normalize) rc.1 rc.2 })) := by
  constructor
  · intro h
    rw [apply_cosine_similarity, if_pos h]
  · intro h1 h2
    obtain ⟨hlen, hfst, hsnd, hrange⟩ := linear_sum_assignment_spec
      (input2.filterMap id).length (input1.filterMap id).length
      (simMatrix ((input2.filterMap id).map normalize)
        ((input1.filterMap id).map normalize))
    refine ⟨applyCosineRows normalize simMatrix input1 input2, ?_, ?_, ?_⟩
    · rw [apply_cosine_similarity, if_neg (by simp [h1, h2])]
    · rw [applyCosineRows, List.length_map, hlen, Nat.min_comm]
    · exact ⟨_, hfst, hsnd, hrange, rfl⟩

/-- C7 witness: the shape theorem at a concrete input with one null on each
side, a trivial normalizer and a constant similarity matrix. -/
theorem apply_cosine_similarity_shape_witness :
    ∃ rows, apply_cosine_similarity (fun s => s) (fun _ _ _ _ => 1)
        [some "Alexi Lalas", none, some "Cobi Jones"]
        [none, some "LALAS, Alexi"] = Except.ok rows
      ∧ rows.length = min
          (([some "Alexi Lalas", none, some "Cobi Jones"] :
            List (Option String)).filterMap id).length
          (([none, some "LALAS, Alexi"] : List (Option String)).filterMap id).length
      ∧ ∃ pairs : List (Nat × Nat),
          (pairs.map Prod.fst).Nodup
          ∧ (pairs.map Prod.snd).Nodup
          ∧ (∀ p ∈ pairs,
              p.1 < (([none, some "LALAS, Alexi"] :
                List (Option String)).filterMap id).length
              ∧ p.2 < (([some "Alexi Lalas", none, some "Cobi Jones"] :
                List (Option String)).filterMap id).length)
          ∧ rows = pairs.map (fun rc =>
              { input1 := (([some "Alexi Lalas", none, some "Cobi Jones"] :
                  List (Option String)).filterMap id).getD rc.2 "",
                input1Normalized := ((([some "Alexi Lalas", none, some "Cobi Jones"] :
                  List (Option String)).filterMap id).map (fun s => s)).getD rc.2 "",
                input2 := (([none, some "LALAS, Alexi"] :
                  List (Option String)).filterMap id).getD rc.1 "",
                input2Normalized := ((([none, some "LALAS, Alexi"] :
                  List (Option String)).filterMap id).map (fun s => s)).getD rc.1 "",
                similarity := 1 }) :=
  (apply_cosine_similarity_shape (fun s => s) (fun _ _ _ _ => 1)
    [some "Alexi Lalas", none, some "Cobi Jones"]
    [none, some "LALAS, Alexi"]).2 (by decide) (by decide)

/-! ### C10: birth-date mutation inside the player layer cascade

`PlayerSyncEngine.synchronize_using_strategy` (player.py lines 227-335)
rewrites `input1.data.birth_date` in place (lines 242-250) whenever the layer
carries a non-null `date_adjustment` and both inputs have a `birth_date`
column, then runs the layer's matching and returns the synced id pairs.
`PlayerSyncEngine.synchronize_pair` (player.py lines 337-517) applies a
cascade of such layers; each loop iteration (lines 465-508) constructs
`remaining_1`/`remaining_2` as fresh `PlayerSyncableContent` wrappers around
`input1.data[mask]` / `input2.data[mask]`, and pandas boolean-mask indexing
returns a copy, so a layer's in-place rewrite lands on that iteration's copy.

The embedding keeps the matching core and the pandas date arithmetic
abstract: `matchCore` stands for lines 252-335 (normalization, the
methodology dispatch, the `other_equal_fields` filter and the
one-to-one-match filter — the source stores layer 4's methodology as the
raw string "naive", which compares unequal to the enum member at line 252,
so it too runs the cosine branch), and `adjustDate` stands for
`(pd.to_datetime(cell) + Timedelta(d)).strftime(fmt)` with the swapped
format when requested. Mutation is made explicit: each strategy call
returns the post-state of its first argument next to the match frame, and
the pair-synchronization result carries the post-states of the caller's
arguments together with a ghost trace of every `input1`-argument post-state
in call order. The pandera schema validation of `PlayerSyncableContent` is
not modelled: it can only raise, never alter data. -/

/-- `s.endswith(sfx)` for the `columns.str.endswith("_player_id")` mask of
player.py line 361. -/
def strEndsWith (s sfx : String) : Bool :=
  charsStartWith s.data.reverse sfx.data.reverse

/-- `glass_onion.player.PlayerSyncLayer` (player.py lines 34-62).
`match_methodology` is kept as the stored string (the enum members' values
are "cosine_similarity", "naive", "fuzzy"; layer 4 of the cascade stores the
raw string "naive"); `date_adjustment` is the `Optional[pd.Timedelta]` in
days. -/
structure PlayerSyncLayer where
  title : String
  matchMethodology : String
  dateAdjustment : Option Int
  swapBirthMonthDay : Bool
  inputFields : String × String
  otherEqualFields : List String
  similarityThreshold : ℚ
deriving DecidableEq, Repr

/-- The constructor defaults of `PlayerSyncLayer.__init__` (player.py lines
46-62): methodology COSINE, `date_adjustment=pd.Timedelta(0)`,
`swap_birth_month_day=False`, `input_fields=("player_name", "player_name")`,
`other_equal_fields=["birth_date", "team_id"]`, `threshold=0.75`. -/
def playerLayerDefault (title : String) : PlayerSyncLayer :=
  { title := title, matchMethodology := "cosine_similarity",
    dateAdjustment := some 0, swapBirthMonthDay := false,
    inputFields := ("player_name", "player_name"),
    otherEqualFields := ["birth_date", "team_id"],
    similarityThreshold := 3 / 4 }

/-- The first layer of the cascade (player.py lines 355-359). -/
def playerLayer1 : PlayerSyncLayer :=
  { playerLayerDefault "Layer 1: cosine similarity x jersey number x team" with
    dateAdjustment := none,
    otherEqualFields := ["jersey_number", "team_id"] }

/-- The in-place birth-date rewrite at the top of
`synchronize_using_strategy` (player.py lines 242-250): when the layer has a
non-null `date_adjustment` and both inputs carry a `birth_date` column,
`input1.data.birth_date` is replaced cell-by-cell by the adjusted,
re-formatted date; `adjustDate cell d swap` abstracts
`(pd.to_datetime(cell) + pd.Timedelta(d)).strftime(fmt)` with
`fmt = "%Y-%d-%m" if swap else "%Y-%m-%d"`. -/
def stratAdjusted (adjustDate : Cell → Int → Bool → Cell)
    (input1 input2 : SC) (strategy : PlayerSyncLayer) : SC :=
  if strategy.dateAdjustment.isSome ∧ "birth_date" ∈ input1.data.cols
      ∧ "birth_date" ∈ input2.data.cols then
    { input1 with
      data := input1.data.mapColumn "birth_date" (fun cell =>
        adjustDate cell (strategy.dateAdjustment.getD 0)
          strategy.swapBirthMonthDay) }
  else input1

/-- `PlayerSyncEngine.synchronize_using_strategy` (player.py lines 227-335):
the birth-date rewrite mutates `input1` in place, then the matching core
(lines 252-335, abstracted as `matchCore`) runs on the mutated `input1`.
The embedding returns the post-state of `input1` next to the returned
`synced` frame. -/
def synchronize_using_strategy (matchCore : SC → SC → PlayerSyncLayer → DF)
    (adjustDate : Cell → Int → Bool → Cell)
    (input1 input2 : SC) (strategy : PlayerSyncLayer) : SC × DF :=
  (stratAdjusted adjustDate input1 input2 strategy,
   matchCore (stratAdjusted adjustDate input1 input2 strategy) input2 strategy)

/-- `list(product(["player_name", "player_nickname"], ...))` (player.py lines
376-380), in `itertools.product` order. -/
def inputFieldOptions : List (String × String) :=
  [("player_name", "player_name"), ("player_name", "player_nickname"),
   ("player_nickname", "player_name"), ("player_nickname", "player_nickname")]

/-- The birth-date reliability test guarding layer 2 (player.py lines
384-389): both inputs carry a `birth_date` column with no null entries. -/
def birthDateReliable (i1 i2 : SC) : Bool :=
  decide ("birth_date" ∈ i1.data.cols) &&
  notnaCount i1.data "birth_date" == i1.data.rows.length &&
  decide ("birth_date" ∈ i2.data.cols) &&
  notnaCount i2.data "birth_date" == i2.data.rows.length

/-- The four layer-2 variants built for one `input_fields` pair (player.py
lines 391-412): adjustments `range(-1, 1)` without the month/day swap, then
the same two with it. -/
def birthDateLayersFor (p : String × String) : List PlayerSyncLayer :=
  (([-1, 0] : List Int).map (fun d =>
    { playerLayerDefault "Layer 2: cosine similarity x birth date x team" with
      dateAdjustment := some d, inputFields := p })) ++
  (([-1, 0] : List Int).map (fun d =>
    { playerLayerDefault "Layer 2: cosine similarity x birth date x team" with
      dateAdjustment := some d, swapBirthMonthDay := true, inputFields := p }))

/-- The strategy list `sync_strategies` assembled by `synchronize_pair`
(player.py lines 382-460): the flattened birth-date layers when `birth_date`
is reliable, the layer-3 and layer-4 variants over `input_field_options`,
and the single layer 5 (with `jersey_number` dropped when it is not among
the engine's join columns). -/
def mkPlayerStrategies (joinColumns : List String) (i1 i2 : SC) :
    List PlayerSyncLayer :=
  (if birthDateReliable i1 i2 then inputFieldOptions.flatMap birthDateLayersFor
   else []) ++
  inputFieldOptions.map (fun p =>
    { playerLayerDefault "Layer 3: cosine similarity x team" with
      dateAdjustment := none, inputFields := p,
      otherEqualFields := ["team_id"] }) ++
  inputFieldOptions.map (fun p =>
    { playerLayerDefault "Layer 4: naive similarity x team" with
      matchMethodology := "naive", dateAdjustment := none, inputFields := p,
      otherEqualFields := ["team_id"] }) ++
  [if "jersey_number" ∈ joinColumns then
    { playerLayerDefault "Layer 5: jersey number x team" with
      dateAdjustment := none, otherEqualFields := ["jersey_number", "team_id"],
      similarityThreshold := 0 }
   else
    { playerLayerDefault "Layer 5: team" with
      dateAdjustment := none, otherEqualFields := ["team_id"],
      similarityThreshold := 0 }]

/-- The result of the player pair synchronization, with the mutation made
explicit: `post1`/`post2` are the post-states of the caller's arguments,
`result` is the returned wrapper, and `layerInputs` is a ghost trace holding,
for every `synchronize_using_strategy` call the cascade performed, the
post-state of the wrapper passed as that call's `input1` (the caller's
`input1` for layer 1, the iteration's `remaining_1` copy inside the loop). -/
structure PlayerPairResult where
  post1 : SC
  post2 : SC
  result : SC
  layerInputs : List SC
deriving DecidableEq, Repr

/-- The post-state of the caller's `input1` after the layer-1 call at
player.py lines 352-360 (the only strategy call that receives the caller's
wrapper itself rather than a `remaining_1` copy). -/
def playerPairInput1a (matchCore : SC → SC → PlayerSyncLayer → DF)
    (adjustDate : Cell → Int → Bool → Cell) (i1 i2 : SC) : SC :=
  (synchronize_using_strategy matchCore adjustDate i1 i2 playerLayer1).1

/-- The accumulating `sync_result` frame after layer 1 (player.py lines
361-370): `input1.data`, projected onto the name/nickname/jersey/team
columns plus every `*_player_id` column, left-merged with the layer-1
synced pairs on `input1.id_field`. -/
def playerPairSyncResult0 (matchCore : SC → SC → PlayerSyncLayer → DF)
    (adjustDate : Cell → Int → Bool → Cell) (i1 i2 : SC) : DF :=
  ((playerPairInput1a matchCore adjustDate i1 i2).data.project
      (["player_name", "player_nickname", "jersey_number", "team_id"] ++
        (playerPairInput1a matchCore adjustDate i1 i2).data.cols.filter
          (fun c => strEndsWith c "_player_id"))).leftMerge
    (synchronize_using_strategy matchCore adjustDate i1 i2 playerLayer1).2
    [(playerPairInput1a matchCore adjustDate i1 i2).idField]

/-- The strategy loop of `PlayerSyncEngine.synchronize_pair` (player.py lines
465-508). Each iteration rebuilds `remaining_1`/`remaining_2` as fresh
wrappers around the boolean-mask selections `input1.data[~isin]` /
`input2.data[~isin]` (copies, in pandas), skips the strategy when either is
empty, otherwise runs it on the copies and — when it found matches — folds
them into `sync_result` via the merge/overwrite/drop/rename step
(`playerTierStep`) and refreshes `synced`. The loop threads `i1`/`i2`
unchanged: the in-place birth-date rewrite inside a strategy call lands on
the iteration's `remaining_1` copy, whose post-state is appended to the
ghost trace. -/
def playerCascadeLoop (matchCore : SC → SC → PlayerSyncLayer → DF)
    (adjustDate : Cell → Int → Bool → Cell) (i1 i2 : SC) :
    List PlayerSyncLayer → DF → DF → List SC →
      Except String (DF × DF × List SC)
  | [], syncResult, synced, trace => .ok (syncResult, synced, trace)
  | strat :: rest, syncResult, synced, trace =>
      (mkSC "player" i1.provider
          (i1.data.filterNotIsin i1.idField (synced.getColumn i1.idField))).bind
        (fun rem1 =>
          (mkSC "player" i2.provider
              (i2.data.filterNotIsin i2.idField
                (synced.getColumn i2.idField))).bind
            (fun rem2 =>
              if rem1.data.rows.length = 0 ∨ rem2.data.rows.length = 0 then
                playerCascadeLoop matchCore adjustDate i1 i2 rest
                  syncResult synced trace
              else
                let attempt :=
                  synchronize_using_strategy matchCore adjustDate rem1 rem2 strat
                if attempt.2.rows.length > 0 then
                  let sr2 := playerTierStep syncResult attempt.2
                    i1.idField i2.idField
                  playerCascadeLoop matchCore adjustDate i1 i2 rest sr2
                    (sr2.dropnaSubset [i1.idField, i2.idField])
                    (trace ++ [attempt.1])
                else
                  playerCascadeLoop matchCore adjustDate i1 i2 rest
                    syncResult synced (trace ++ [attempt.1])))

/-- `PlayerSyncEngine.synchronize_pair` (player.py lines 337-517): the two
empty-side branches shared with the base class, then layer 1 on the caller's
wrappers, the strategy-list construction, the cascade loop, and the final
`PlayerSyncableContent` built from the rows of `sync_result` that are
non-null in both id fields. The `Except` value carries construction
failures of the intermediate wrappers (`AssertionError`s in the source). -/
def playerSynchronizePair (matchCore : SC → SC → PlayerSyncLayer → DF)
    (adjustDate : Cell → Int → Bool → Cell)
    (joinColumns : List String) (i1 i2 : SC) :
    Except String PlayerPairResult :=
  if i1.data.rows.length = 0 ∧ i2.data.rows.length > 0 then
    let i2' := { i2 with data := i2.data.setColumnConst i1.idField none }
    .ok { post1 := i1, post2 := i2', result := i2', layerInputs := [] }
  else if i1.data.rows.length > 0 ∧ i2.data.rows.length = 0 then
    let i1' := { i1 with data := i1.data.setColumnConst i2.idField none }
    .ok { post1 := i1', post2 := i2, result := i1', layerInputs := [] }
  else
    (playerCascadeLoop matchCore adjustDate
        (playerPairInput1a matchCore adjustDate i1 i2) i2
        (mkPlayerStrategies joinColumns
          (playerPairInput1a matchCore adjustDate i1 i2) i2)
        (playerPairSyncResult0 matchCore adjustDate i1 i2)
        ((playerPairSyncResult0 matchCore adjustDate i1 i2).dropnaSubset
          [(playerPairInput1a matchCore adjustDate i1 i2).idField, i2.idField])
        [playerPairInput1a matchCore adjustDate i1 i2]).bind
      (fun res =>
        (mkSC "player" i1.provider
            (res.1.dropnaSubset
              [(playerPairInput1a matchCore adjustDate i1 i2).idField,
               i2.idField])).map
          (fun final =>
            { post1 := playerPairInput1a matchCore adjustDate i1 i2,
              post2 := i2, result := final, layerInputs := res.2.2 }))

/-- A concrete matching core that finds no confident pair: the empty
`synced` frame with the two id columns, exactly what player.py lines 326-329
produce when no candidate survives the filters. -/
def c10MatchCore (r1 r2 : SC) (_strat : PlayerSyncLayer) : DF :=
  { cols := [r1.idField, r2.idField], rows := [] }

/-- A concrete date-adjustment function: a visible, injective-on-markers
stand-in for `(pd.to_datetime(cell) + Timedelta(d)).strftime(fmt)` — it
prefixes the stored date string with the format and the adjustment's sign,
so an adjusted cell is never equal to the original. -/
def c10AdjustDate (cell : Cell) (d : Int) (swap : Bool) : Cell :=
  match cell with
  | some (Val.str s) =>
      some (Val.str ((if swap then "Y-D-M" else "Y-M-D") ++
        (if d < 0 then "-:" else "+:") ++ s))
  | c => c

/-- First provider of the C10 scenario: one fully populated player row
(non-null name, nickname, jersey number, team and birth date). -/
def c10Input1 : SC :=
  { objectType := "player", provider := "provider_a",
    data := { cols := ["provider_a_player_id", "player_name",
                       "player_nickname", "jersey_number", "team_id",
                       "birth_date"],
              rows := [[("provider_a_player_id", some (Val.str "1")),
                        ("player_name", some (Val.str "Alexi Lalas")),
                        ("player_nickname", some (Val.str "Lalas")),
                        ("jersey_number", some (Val.str "4")),
                        ("team_id", some (Val.str "10")),
                        ("birth_date", some (Val.str "1970-06-01"))]] } }

/-- Second provider of the C10 scenario: one fully populated player row. -/
def c10Input2 : SC :=
  { objectType := "player", provider := "provider_b",
    data := { cols := ["provider_b_player_id", "player_name",
                       "player_nickname", "jersey_number", "team_id",
                       "birth_date"],
              rows := [[("provider_b_player_id", some (Val.str "9")),
                        ("player_name", some (Val.str "Cobi Jones")),
                        ("player_nickname", some (Val.str "Jones")),
                        ("jersey_number", some (Val.str "13")),
                        ("team_id", some (Val.str "10")),
                        ("birth_date", some (Val.str "1970-06-16"))]] } }

/-- The join columns a `PlayerSyncEngine` over the two C10 providers would
carry: every join column is fully populated on both sides, so none is
removed. -/
def c10JoinCols : List String := ["jersey_number", "team_id", "player_name"]

/-- The C10 run's output, extracted from the successful result. -/
def c10Out : PlayerPairResult :=
  (playerSynchronizePair c10MatchCore c10AdjustDate c10JoinCols
      c10Input1 c10Input2).toOption.getD
    { post1 := c10Input1, post2 := c10Input2, result := c10Input1,
      layerInputs := [] }

/-- Inversion of a successful `Except.bind`. -/
theorem exceptBind_ok {ε α β : Type} (e : Except ε α) (f : α → Except ε β)
    (b : β) (h : e.bind f = Except.ok b) :
    ∃ a, e = Except.ok a ∧ f a = Except.ok b := by
  cases e with
  | error err => exact absurd h (by simp [Except.bind])
  | ok a => exact ⟨a, rfl, h⟩

/-- Inversion of a successful `Except.map`. -/
theorem exceptMap_ok {ε α β : Type} (e : Except ε α) (f : α → β)
    (b : β) (h : e.map f = Except.ok b) :
    ∃ a, e = Except.ok a ∧ b = f a := by
  cases e with
  | error err => exact absurd h (by simp [Except.map])
  | ok a =>
    refine ⟨a, rfl, ?_⟩
    have h2 : Except.ok (ε := ε) (f a) = Except.ok b := h
    exact (Except.ok.inj h2).symm

/-- C10: the in-place birth-date rewrite of
`PlayerSyncEngine.synchronize_using_strategy` is real but stays on the layer
copies. First conjunct (the claim's premise, which holds): whenever a layer
has a non-null `date_adjustment` and both inputs carry a `birth_date`
column, the strategy call leaves its first argument with the `birth_date`
column rewritten cell-by-cell through the date adjustment. Second conjunct
(against the claim's persistence part): with both inputs non-empty, every
successful `synchronize_pair` run leaves the caller's `input1` and `input2`
exactly as supplied — layer 1 is the only strategy call that receives the
caller's wrapper and it carries no date adjustment, and every loop
iteration passes a fresh boolean-mask copy (`remaining_1`), so the rewrites
land on those copies and never reach the caller's data. -/
theorem player_birth_date_mutation_confined
    (matchCore : SC → SC → PlayerSyncLayer → DF)
    (adjustDate : Cell → Int → Bool → Cell)
    (joinColumns : List String) (i1 i2 : SC)
    (h1 : 0 < i1.data.rows.length) (h2 : 0 < i2.data.rows.length) :
    (∀ (j1 j2 : SC) (strat : PlayerSyncLayer) (d : Int),
        strat.dateAdjustment = some d →
        "birth_date" ∈ j1.data.cols → "birth_date" ∈ j2.data.cols →
        (synchronize_using_strategy matchCore adjustDate j1 j2 strat).1.data =
          j1.data.mapColumn "birth_date"
            (fun cell => adjustDate cell d strat.swapBirthMonthDay)) ∧
    (∀ out, playerSynchronizePair matchCore adjustDate joinColumns i1 i2 =
        Except.ok out → out.post1 = i1 ∧ out.post2 = i2) := by
  constructor
  · intro j1 j2 strat d hd hb1 hb2
    have hs : strat.dateAdjustment.isSome = true := by rw [hd]; rfl
    show (stratAdjusted adjustDate j1 j2 strat).data = _
    unfold stratAdjusted
    rw [if_pos ⟨hs, hb1, hb2⟩, hd]
    rfl
  · intro out hout
    have hA : ¬(i1.data.rows.length = 0 ∧ i2.data.rows.length > 0) := by
      intro h; omega
    have hB : ¬(i1.data.rows.length > 0 ∧ i2.data.rows.length = 0) := by
      intro h; omega
    unfold playerSynchronizePair at hout
    rw [if_neg hA, if_neg hB] at hout
    obtain ⟨res, hres, hmap⟩ := exceptBind_ok _ _ _ hout
    obtain ⟨final, hfin, hout2⟩ := exceptMap_ok _ _ _ hmap
    rw [hout2]
    exact ⟨rfl, rfl⟩

/-- C10 witness: the amended theorem applied to the concrete C10 scenario
(two non-empty, fully populated one-row providers, the no-match core and the
marking date adjuster): the run succeeds and hands back the caller's inputs
untouched. -/
theorem player_birth_date_mutation_confined_witness :
    0 < c10Input1.data.rows.length ∧ 0 < c10Input2.data.rows.length ∧
    c10Out.post1 = c10Input1 ∧ c10Out.post2 = c10Input2 :=
  ⟨by decide, by decide,
   (player_birth_date_mutation_confined c10MatchCore c10AdjustDate c10JoinCols
       c10Input1 c10Input2 (by decide) (by decide)).2 c10Out (by rfl)⟩

/-- C10 counterexample to the original claim's persistence part: in the
concrete C10 run the birth-date layers do fire — of the 26 wrappers passed
as `input1` to strategy calls (layer 1 plus 25 loop iterations), exactly the
16 birth-date layers received a copy whose `birth_date` column the call
rewrote — yet the caller's `input1.data` after `synchronize_pair` returns is
exactly the data supplied, so no mutation persists across layers or out of
the call. -/
theorem player_birth_date_mutation_persists_counterexample :
    (playerSynchronizePair c10MatchCore c10AdjustDate c10JoinCols c10Input1
        c10Input2).map
      (fun out =>
        (decide (out.post1.data = c10Input1.data),
         out.layerInputs.countP (fun sc =>
           decide (sc.data.getColumn "birth_date" ≠
             c10Input1.data.getColumn "birth_date")),
         out.layerInputs.length)) =
      Except.ok (true, 16, 26) := by rfl

end GlassOnion